import Mathlib

/-!
# Aqua Park — formal model of the deterministic simulation core

Shallow embedding of the repository's simulation core (physics engine,
seeded RNG, bot AI controller, procedural track generator, replay codec)
together with proofs about the specified properties.

Modelling conventions:
* JavaScript numbers are modelled as exact rationals (`ℚ`).  Every
  computation relevant to the claims stays well inside the range where
  IEEE-754 doubles are exact or where rounding cannot change a verdict
  (all counterexamples use small integers or fractions with denominator
  `2^32 - 1`).
* The square root in the collision distance test is eliminated by
  comparing squared distances: for nonnegative `d`, `Real.sqrt d < r`
  iff `d < r^2`, so `sqrt (dx²+dy²) < 40` is embedded as
  `dx²+dy² < 1600`.
* In-place mutation of structures becomes explicit state passing.  The
  JavaScript module-level `BOT_PROFILES` record, whose entries are
  mutated through shared references by adaptive bots, is modelled as an
  explicit table threaded through the controller functions.
* The stateful `SeededRNG` class becomes a state-passing function.  A
  32-bit `x & 0xFFFFFFFF` followed by `>>> 0` is `x mod 2^32`; the
  stored signed representative only differs by a multiple of `2^32`,
  which the next step's `mod 2^32` cancels, so the state is kept as the
  unsigned residue.
-/

set_option maxRecDepth 16000

namespace AquaPark

/-! ## Physics constants (engine.ts, `PHYSICS`) -/

namespace PHYSICS

def FIXED_DT : ℚ := 1/60
def LANE_WIDTH : ℚ := 50
def MAX_LANES : ℕ := 5
def FORWARD_ACCEL : ℚ := 120
def MAX_FORWARD_SPEED : ℚ := 400
def LATERAL_SPEED : ℚ := 280
def LATERAL_ACCEL : ℚ := 1200
def LATERAL_FRICTION : ℚ := 800
def JUMP_DURATION : ℚ := 1/2
def STUN_DURATION : ℚ := 2/5
def COLLISION_PUSH : ℚ := 150
def COLLISION_RADIUS : ℚ := 20
def SPEED_BOOST_MULT : ℚ := 3/2
def SPEED_BOOST_DURATION : ℚ := 3
def SHIELD_DURATION : ℚ := 4
def JUMP_BOOST_MULT : ℚ := 3/2
def JUMP_BOOST_DURATION : ℚ := 5
def LANDING_BOOST : ℚ := 30
def SLIDE_WIDTH : ℚ := 250

end PHYSICS

/-! ## Seeded RNG (engine.ts, `SeededRNG`) -/

/-- State of the linear-congruential generator.  After one step the seed
is the unsigned 32-bit residue of `seed * 1664525 + 1013904223`. -/
structure SeededRNG where
  seed : ℤ

/-- One LCG step: `seed = (seed * 1664525 + 1013904223) & 0xFFFFFFFF`,
then `(seed >>> 0) / 0xFFFFFFFF`.  Note the divisor is `2^32 - 1`, so
the quotient reaches `1` exactly when the new residue is `2^32 - 1`. -/
def SeededRNG.next (r : SeededRNG) : SeededRNG × ℚ :=
  let u := (r.seed * 1664525 + 1013904223).emod 4294967296
  (⟨u⟩, (u : ℚ) / 4294967295)

/-- `nextInt(min, max)`: `Math.floor(next() * (max - min)) + min`. -/
def SeededRNG.nextInt (r : SeededRNG) (min max : ℤ) : SeededRNG × ℤ :=
  ((r.next).1, ⌊(r.next).2 * ((max : ℚ) - (min : ℚ))⌋ + min)

/-- `nextFloat(min, max)`: `next() * (max - min) + min`. -/
def SeededRNG.nextFloat (r : SeededRNG) (min max : ℚ) : SeededRNG × ℚ :=
  ((r.next).1, (r.next).2 * (max - min) + min)

/-! ## Game data model (types.ts) -/

inductive GameMode where
  | classic | timeTrial | chaos | custom
  deriving DecidableEq, Repr

inductive SegmentType where
  | straight | curve_left | curve_right | ramp | gap | splitter | narrow
  deriving DecidableEq, Repr

inductive ObstacleType where
  | barrel | ring | bumper
  deriving DecidableEq, Repr

inductive PowerupType where
  | speed_boost | shield | jump_boost
  deriving DecidableEq, Repr

structure ObstacleData where
  type : ObstacleType
  lane : ℤ
  position : ℚ
  moving : Bool
  moveRange : ℤ
  deriving DecidableEq, Repr

structure PowerupData where
  type : PowerupType
  lane : ℤ
  position : ℚ
  deriving DecidableEq, Repr

structure TrackSegment where
  type : SegmentType
  length : ℚ
  lanes : ℕ
  obstacles : List ObstacleData
  powerups : List PowerupData
  friction : ℚ
  slope : ℚ
  deriving DecidableEq, Repr

/-- Game settings; only `matchLength` (seconds) is consumed by the
simulation core modelled here. -/
structure GameSettings where
  matchLength : ℚ
  deriving DecidableEq, Repr

inductive BotProfileType where
  | casual | aggressive | speedster | trickster | adaptive
  deriving DecidableEq, Repr

/-- Per-tick input.  `{left, right, jump}`. -/
structure InputState where
  left : Bool
  right : Bool
  jump : Bool
  deriving DecidableEq, Repr

structure ReplayFrame where
  tick : ℕ
  inputs : InputState
  deriving DecidableEq, Repr

/-- Replay data.  Numeric fields are modelled as naturals; `settings`
is informational only (encode drops it, decode restores `{}`). -/
structure ReplayData where
  version : ℕ
  seed : ℕ
  mode : GameMode
  settings : Unit
  frames : List ReplayFrame
  startTime : ℕ
  playerName : String
  deriving DecidableEq, Repr

/-- Player state (types.ts `PlayerState`); identity is modelled as a
number, kinematics as rationals. -/
structure PlayerState where
  id : ℕ
  name : String
  x : ℚ
  y : ℚ
  lane : ℤ
  forwardSpeed : ℚ
  lateralSpeed : ℚ
  distanceTraveled : ℚ
  isJumping : Bool
  jumpTimer : ℚ
  stunTimer : ℚ
  hasShield : Bool
  shieldTimer : ℚ
  speedBoostTimer : ℚ
  jumpBoostTimer : ℚ
  isBot : Bool
  botProfile : Option BotProfileType
  skinIndex : ℕ
  score : ℚ
  finished : Bool
  finishTime : ℚ
  finishPosition : ℚ
  deriving DecidableEq, Repr

/-- `createPlayerState` (engine.ts). -/
def createPlayerState (id : ℕ) (name : String) (lane : ℤ) (isBot : Bool)
    (skinIndex : ℕ) (botProfile : Option BotProfileType := none) : PlayerState where
  id := id
  name := name
  x := (lane : ℚ) * PHYSICS.LANE_WIDTH + PHYSICS.LANE_WIDTH / 2
  y := 0
  lane := lane
  forwardSpeed := 0
  lateralSpeed := 0
  distanceTraveled := 0
  isJumping := false
  jumpTimer := 0
  stunTimer := 0
  hasShield := false
  shieldTimer := 0
  speedBoostTimer := 0
  jumpBoostTimer := 0
  isBot := isBot
  botProfile := botProfile
  skinIndex := skinIndex
  score := 0
  finished := false
  finishTime := 0
  finishPosition := 0

/-! ## Physics update (engine.ts, `updatePlayerPhysics`)

The source mutates `player` in place; the model returns the new state.
It is split into the timer-decay prefix and the movement suffix exactly
at the `if (player.stunTimer > 0) return` line. -/

/-- Timer decrements at the top of `updatePlayerPhysics` (stun, shield,
speed boost, jump boost), each clamped at 0; expiring shield clears
`hasShield`.  The four source blocks read and write disjoint fields, so
they are recorded as one parallel field update. -/
def decayTimers (p : PlayerState) (dt : ℚ) : PlayerState :=
  { p with
    stunTimer :=
      if p.stunTimer > 0 then (if p.stunTimer - dt < 0 then 0 else p.stunTimer - dt)
      else p.stunTimer,
    hasShield := if p.shieldTimer > 0 ∧ p.shieldTimer - dt ≤ 0 then false else p.hasShield,
    shieldTimer :=
      if p.shieldTimer > 0 then (if p.shieldTimer - dt ≤ 0 then 0 else p.shieldTimer - dt)
      else p.shieldTimer,
    speedBoostTimer :=
      if p.speedBoostTimer > 0 then (if p.speedBoostTimer - dt < 0 then 0 else p.speedBoostTimer - dt)
      else p.speedBoostTimer,
    jumpBoostTimer :=
      if p.jumpBoostTimer > 0 then (if p.jumpBoostTimer - dt < 0 then 0 else p.jumpBoostTimer - dt)
      else p.jumpBoostTimer }

/-- Movement part of `updatePlayerPhysics` (runs only when the player is
not stunned after timer decay): forward acceleration, lateral steering
and friction, jump handling, integration, clamping to slide bounds and
lane recomputation, in source order. -/
def movePhase (p : PlayerState) (input : InputState) (segment : TrackSegment)
    (dt : ℚ) : PlayerState :=
  -- Forward acceleration (downhill)
  let slopeBoost := -segment.slope * 50
  let speedMult := if p.speedBoostTimer > 0 then PHYSICS.SPEED_BOOST_MULT else 1
  let fs := p.forwardSpeed + (PHYSICS.FORWARD_ACCEL + slopeBoost) * dt
  let fs := min (fs * speedMult) PHYSICS.MAX_FORWARD_SPEED
  let fs := fs * segment.friction
  -- Lateral movement
  let targetLateral : ℚ := (if input.left then -1 else 0) + (if input.right then 1 else 0)
  let ls :=
    if targetLateral ≠ 0 then
      max (-PHYSICS.LATERAL_SPEED)
        (min PHYSICS.LATERAL_SPEED (p.lateralSpeed + targetLateral * PHYSICS.LATERAL_ACCEL * dt))
    else if p.lateralSpeed > 0 then
      (if p.lateralSpeed - PHYSICS.LATERAL_FRICTION * dt < 0 then 0
       else p.lateralSpeed - PHYSICS.LATERAL_FRICTION * dt)
    else if p.lateralSpeed < 0 then
      (if p.lateralSpeed + PHYSICS.LATERAL_FRICTION * dt > 0 then 0
       else p.lateralSpeed + PHYSICS.LATERAL_FRICTION * dt)
    else p.lateralSpeed
  -- Jump handling
  let startJump := input.jump && !p.isJumping
  let isJumping := if startJump then true else p.isJumping
  let jumpTimer :=
    if startJump then
      (if p.jumpBoostTimer > 0 then PHYSICS.JUMP_DURATION * PHYSICS.JUMP_BOOST_MULT
       else PHYSICS.JUMP_DURATION)
    else p.jumpTimer
  let jumpEnds := isJumping && decide (jumpTimer - dt ≤ 0)
  let fs := if jumpEnds then fs + PHYSICS.LANDING_BOOST else fs
  let isJumping' := if jumpEnds then false else isJumping
  let jumpTimer' := if isJumping then (if jumpTimer - dt ≤ 0 then 0 else jumpTimer - dt) else jumpTimer
  -- Integrate position
  let x := p.x + ls * dt
  let dist := p.distanceTraveled + fs * dt
  -- Clamp to slide bounds
  let halfWidth := ((segment.lanes : ℚ) * PHYSICS.LANE_WIDTH) / 2
  let centerX := PHYSICS.SLIDE_WIDTH / 2
  let x := max (centerX - halfWidth + 10) (min (centerX + halfWidth - 10) x)
  -- Update lane based on position
  let lane := ⌊x / PHYSICS.LANE_WIDTH⌋
  let lane := max 0 (min ((segment.lanes : ℤ) - 1) lane)
  { p with
    forwardSpeed := fs, lateralSpeed := ls,
    isJumping := isJumping', jumpTimer := jumpTimer',
    x := x, distanceTraveled := dist, lane := lane }

/-- `updatePlayerPhysics` for one fixed timestep. -/
def updatePlayerPhysics (p : PlayerState) (input : InputState)
    (segment : TrackSegment) (dt : ℚ) : PlayerState :=
  if p.finished then p
  else
    let p1 := decayTimers p dt
    if p1.stunTimer > 0 then p1
    else movePhase p1 input segment dt

/-! ## Player collision (engine.ts) -/

/-- `checkPlayerCollision`: the source compares
`sqrt(dx²+dy²) < COLLISION_RADIUS * 2`; squaring both (nonnegative)
sides gives the equivalent

 `dx²+dy² < (2 * COLLISION_RADIUS)^2`. -/
def checkPlayerCollision (a b : PlayerState) : Bool :=
  if a.isJumping || b.isJumping then false
  else if a.finished || b.finished then false
  else
    let dx := a.x - b.x
    let dy := a.distanceTraveled - b.distanceTraveled
    decide (dx * dx + dy * dy < (PHYSICS.COLLISION_RADIUS * 2) ^ 2)

/-- `resolveCollision`, returning the updated pair `(a, b)`. -/
def resolveCollision (a b : PlayerState) : PlayerState × PlayerState :=
  if a.hasShield && b.hasShield then (a, b)
  else
    let dx := a.x - b.x
    let pushDir : ℚ := if dx > 0 then 1 else -1
    let a' := if !a.hasShield then
        { a with lateralSpeed := a.lateralSpeed + pushDir * PHYSICS.COLLISION_PUSH,
                 stunTimer := PHYSICS.STUN_DURATION }
      else a
    let b' := if !b.hasShield then
        { b with lateralSpeed := b.lateralSpeed - pushDir * PHYSICS.COLLISION_PUSH,
                 stunTimer := PHYSICS.STUN_DURATION }
      else b
    (a', b')

/-! ## Scoring (engine.ts, `calculateScore`) -/

/-- `calculateScore(position, totalPlayers, finishTime, matchLength)`. -/
def calculateScore (position totalPlayers finishTime matchLength : ℚ) : ℚ :=
  let positionScore := max 0 ((totalPlayers - position + 1) * 100)
  let timeBonus : ℤ := max 0 ⌊(matchLength - finishTime) * 10⌋
  positionScore + (timeBonus : ℚ)

/-! ## Bot profiles (botProfiles.ts) -/

/-- Tunable bot behaviour parameters (`BotProfile`). -/
structure BotProfile where
  type : BotProfileType
  name : String
  targetSpeedFactor : ℚ
  boostSeekRange : ℚ
  optimalLineWeight : ℚ
  collisionAggression : ℚ
  collisionAvoidance : ℚ
  jumpFrequency : ℚ
  jumpTimingPrecision : ℚ
  riskTolerance : ℚ
  obstacleAvoidRange : ℚ
  steeringJitter : ℚ
  reactionDelay : ℕ
  mistakeChance : ℚ
  adaptiveness : ℚ
  deriving DecidableEq, Repr

/-- The predefined profile record `BOT_PROFILES`.  In the source this is
a module-level mutable object; here it is the initial value of the
profile table. -/
def BOT_PROFILES : BotProfileType → BotProfile
  | .casual =>
    { type := .casual, name := "Casual", targetSpeedFactor := 7/10,
      boostSeekRange := 100, optimalLineWeight := 3/10,
      collisionAggression := 1/10, collisionAvoidance := 7/10,
      jumpFrequency := 1/5, jumpTimingPrecision := 3/10,
      riskTolerance := 1/5, obstacleAvoidRange := 120,
      steeringJitter := 3/20, reactionDelay := 8,
      mistakeChance := 1/10, adaptiveness := 1/10 }
  | .aggressive =>
    { type := .aggressive, name := "Aggressive", targetSpeedFactor := 17/20,
      boostSeekRange := 150, optimalLineWeight := 2/5,
      collisionAggression := 4/5, collisionAvoidance := 1/5,
      jumpFrequency := 2/5, jumpTimingPrecision := 1/2,
      riskTolerance := 4/5, obstacleAvoidRange := 80,
      steeringJitter := 1/10, reactionDelay := 4,
      mistakeChance := 2/25, adaptiveness := 3/10 }
  | .speedster =>
    { type := .speedster, name := "Speedster", targetSpeedFactor := 19/20,
      boostSeekRange := 200, optimalLineWeight := 4/5,
      collisionAggression := 1/5, collisionAvoidance := 1/2,
      jumpFrequency := 3/10, jumpTimingPrecision := 4/5,
      riskTolerance := 1/2, obstacleAvoidRange := 150,
      steeringJitter := 1/20, reactionDelay := 2,
      mistakeChance := 1/25, adaptiveness := 1/5 }
  | .trickster =>
    { type := .trickster, name := "Trickster", targetSpeedFactor := 3/4,
      boostSeekRange := 120, optimalLineWeight := 3/10,
      collisionAggression := 3/10, collisionAvoidance := 3/10,
      jumpFrequency := 4/5, jumpTimingPrecision := 7/10,
      riskTolerance := 7/10, obstacleAvoidRange := 100,
      steeringJitter := 3/25, reactionDelay := 5,
      mistakeChance := 3/50, adaptiveness := 1/5 }
  | .adaptive =>
    { type := .adaptive, name := "Adaptive", targetSpeedFactor := 4/5,
      boostSeekRange := 160, optimalLineWeight := 3/5,
      collisionAggression := 2/5, collisionAvoidance := 2/5,
      jumpFrequency := 2/5, jumpTimingPrecision := 3/5,
      riskTolerance := 1/2, obstacleAvoidRange := 130,
      steeringJitter := 2/25, reactionDelay := 3,
      mistakeChance := 1/20, adaptiveness := 9/10 }

/-! ## Bot controller (botController.ts)

`this.profile = BOT_PROFILES[profileType]` stores a *reference* to the
shared record, so adaptive self-tuning writes through to the module
table.  The model makes the table explicit: a `ProfileTable` is threaded
through every controller operation, and a controller holds only its
`profileType` key. -/

/-- The mutable module-level profile store (`BOT_PROFILES` plus any
in-place mutations made through controllers' shared references). -/
def ProfileTable := BotProfileType → BotProfile

inductive BotState where
  | race | avoidObstacle | chase | usePowerup | recover
  deriving DecidableEq, Repr

/-- Controller-private state.  `profileType` plays the role of the
aliased `this.profile` reference into the shared table. -/
structure BotController where
  profileType : BotProfileType
  state : BotState
  stateTimer : ℕ
  reactionBuffer : List InputState
  targetLane : ℤ
  frameCount : ℕ
  deriving DecidableEq, Repr

def neutralInput : InputState := { left := false, right := false, jump := false }

/-- Constructor: state `race`, reaction buffer pre-filled with
`reactionDelay` neutral inputs (the `_rng` argument is unused in the
source and omitted). -/
def BotController.create (tbl : ProfileTable) (profileType : BotProfileType) :
    BotController where
  profileType := profileType
  state := .race
  stateTimer := 0
  reactionBuffer := List.replicate (tbl profileType).reactionDelay neutralInput
  targetLane := 2
  frameCount := 0

/-- Write a profile back into the shared table (the effect of mutating
`this.profile` through the shared reference). -/
def setProfile (tbl : ProfileTable) (k : BotProfileType) (v : BotProfile) :
    ProfileTable :=
  fun q => if q = k then v else tbl q

/-- Nearby-player filter used by `updateState`: other, unfinished, within
100 longitudinally and `SLIDE_WIDTH` laterally. -/
def nearbyPlayers (bot : PlayerState) (allPlayers : List PlayerState) :
    List PlayerState :=
  allPlayers.filter fun p =>
    p.id ≠ bot.id && !p.finished &&
    decide (|p.distanceTraveled - bot.distanceTraveled| < 100) &&
    decide (|p.x - bot.x| < PHYSICS.SLIDE_WIDTH)

/-- Adaptive behaviour adjustment inside `updateState`: an adaptive
profile (`adaptiveness > 0.5`) whose bot trails the human by more than
100 ratchets its own `targetSpeedFactor` and `riskTolerance` up by 0.1
(clamped at 1) — an in-place mutation of the shared profile record,
modelled as a table write. -/
def adaptiveAdjust (tbl : ProfileTable) (k : BotProfileType) (bot : PlayerState)
    (allPlayers : List PlayerState) : ProfileTable :=
  if (tbl k).adaptiveness > 1/2 then
    match allPlayers.find? (fun p => !p.isBot) with
    | some human =>
      if human.distanceTraveled > bot.distanceTraveled + 100 then
        let prof := tbl k
        setProfile tbl k
          { prof with
            targetSpeedFactor := min 1 (prof.targetSpeedFactor + 1/10),
            riskTolerance := min 1 (prof.riskTolerance + 1/10) }
      else tbl
    | none => tbl
  else tbl

/-- The recover→race transition: leave `recover` once the stun is
over. -/
def recoverTransition (bot : PlayerState) (c : BotController) : BotController :=
  if c.state = .recover ∧ bot.stunTimer ≤ 0 then
    { c with state := .race, stateTimer := 0 }
  else c

/-- The chase entry/exit block: when some player is nearby, draw the
RNG and enter `chase` if `collisionAggression` beats the draw; the
`else if` reverts a stale `chase` to `race` (no nearby targets can only
trigger the revert, without drawing). -/
def chaseTransition (aggression : ℚ) (nearbyCount : ℕ) (c : BotController)
    (rng : SeededRNG) : BotController × SeededRNG :=
  if nearbyCount > 0 then
    let d := rng.next
    if aggression > d.2 then
      ({ c with state := .chase, stateTimer := 0 }, d.1)
    else if c.state = .chase ∧ (nearbyCount = 0 ∨ c.stateTimer > 120) then
      ({ c with state := .race, stateTimer := 0 }, d.1)
    else (c, d.1)
  else
    if c.state = .chase ∧ (nearbyCount = 0 ∨ c.stateTimer > 120) then
      ({ c with state := .race, stateTimer := 0 }, rng)
    else (c, rng)

/-- The powerup-use block: with any effect active, draw the RNG and
enter `usePowerup` with probability 0.1. -/
def powerupTransition (bot : PlayerState) (c : BotController) (rng : SeededRNG) :
    BotController × SeededRNG :=
  if bot.speedBoostTimer > 0 ∨ bot.hasShield ∨ bot.jumpBoostTimer > 0 then
    let d := rng.next
    if d.2 < 1/10 then ({ c with state := .usePowerup, stateTimer := 0 }, d.1)
    else (c, d.1)
  else (c, rng)

/-- The 180-tick safety valve: any state held too long reverts to
`race`. -/
def safetyValve (c : BotController) : BotController :=
  if c.stateTimer > 180 then { c with state := .race, stateTimer := 0 } else c

/-- FSM transition step (`updateState`), in source order: stun forces
`recover` and returns; the adaptive adjustment; then recover→race,
chase entry/exit (the RNG is drawn only when some player is nearby),
powerup use, and the 180-tick safety valve. -/
def BotController.updateState (tbl : ProfileTable) (c : BotController)
    (bot : PlayerState) (allPlayers : List PlayerState) (rng : SeededRNG) :
    ProfileTable × BotController × SeededRNG :=
  if bot.stunTimer > 0 then
    (tbl, { c with state := .recover, stateTimer := 0 }, rng)
  else
    let tbl2 := adaptiveAdjust tbl c.profileType bot allPlayers
    let cr2 := chaseTransition ((tbl2 c.profileType).collisionAggression)
      (nearbyPlayers bot allPlayers).length (recoverTransition bot c) rng
    let cr3 := powerupTransition bot cr2.1 cr2.2
    (tbl2, safetyValve cr3.1, cr3.2)

/-- Lane scoring (`scoreLanes`): per lane, center-line bias, obstacle
penalty, powerup bonus and a `nextFloat(-5, 5)` jitter, drawn in lane
order; returns the accumulated scores (index order) and the RNG. -/
def scoreLanesAux (prof : BotProfile) (segment : TrackSegment) :
    ℕ → SeededRNG → List ℚ × SeededRNG
  | 0, rng => ([], rng)
  | n+1, rng =>
    let i := segment.lanes - (n+1)
    let centerDist : ℚ := |(i : ℤ) - (segment.lanes / 2 : ℕ)|
    let base := ((segment.lanes : ℚ) - centerDist) * prof.optimalLineWeight * 10
    let obsPenalty := (segment.obstacles.filter (fun o => o.lane = (i : ℤ))).foldl
      (fun s _ => s - 20 * prof.collisionAvoidance) base
    let withPu := (segment.powerups.filter (fun o => o.lane = (i : ℤ))).foldl
      (fun s _ => s + 15 * prof.boostSeekRange / 200) obsPenalty
    let d := rng.nextFloat (-5) 5
    let rest := scoreLanesAux prof segment n d.1
    ((withPu + d.2) :: rest.1, rest.2)

/-- Best-lane selection over the score list: strict improvement over a
running best that starts at `-Infinity` (so the first lane always wins
initially and ties keep the earlier lane). -/
def bestLane (scores : List ℚ) : ℤ :=
  (scores.foldl
    (fun (acc : ℤ × ℤ × Option ℚ) s =>
      let (idx, best, bestScore) := acc
      match bestScore with
      | none => (idx + 1, idx, some s)
      | some bs => if s > bs then (idx + 1, idx, some s) else (idx + 1, best, bestScore))
    (0, 0, none)).2.1

def scoreLanes (prof : BotProfile) (segment : TrackSegment) (rng : SeededRNG) :
    ℤ × SeededRNG :=
  let r := scoreLanesAux prof segment segment.lanes rng
  (bestLane r.1, r.2)

/-- `raceInput`: steer toward the best-scoring lane's center with a ±10
dead-zone; on ramps jump with probability `jumpTimingPrecision` (falling
through to the second draw when the first fails), otherwise jump with
probability `jumpFrequency / 120`.  Also returns the new `targetLane`. -/
def raceInput (prof : BotProfile) (bot : PlayerState) (segment : TrackSegment)
    (rng : SeededRNG) : InputState × ℤ × SeededRNG :=
  let sl := scoreLanes prof segment rng
  let targetX := (sl.1 : ℚ) * PHYSICS.LANE_WIDTH + PHYSICS.LANE_WIDTH / 2
  let diff := targetX - bot.x
  let left := decide (diff < -10)
  let right := !left && decide (diff > 10)
  let jd : Bool × SeededRNG :=
    if segment.type = .ramp then
      let d := sl.2.next
      if d.2 < prof.jumpTimingPrecision then (true, d.1)
      else
        let d2 := d.1.next
        (decide (d2.2 < prof.jumpFrequency / 120), d2.1)
    else
      let d2 := sl.2.next
      (decide (d2.2 < prof.jumpFrequency / 120), d2.1)
  ({ left := left, right := right, jump := jd.1 }, sl.1, jd.2)

/-- `findSafestLane`: per-lane danger (10 per obstacle on an in-range
lane), minimised with a strict comparison against an initial
`Infinity`, starting from `bot.lane` as the default answer. -/
def findSafestLane (bot : PlayerState) (segment : TrackSegment) : ℤ :=
  let danger : ℕ → ℚ := fun i =>
    ((segment.obstacles.filter fun o => 0 ≤ o.lane ∧ o.lane < (segment.lanes : ℤ)).filter
      (fun o => o.lane = (i : ℤ))).foldl (fun s _ => s + 10) 0
  ((List.range segment.lanes).foldl
    (fun (acc : ℤ × Option ℚ) (i : ℕ) =>
      let (best, bestD) := acc
      let di := danger i
      match bestD with
      | none => ((i : ℤ), some di)
      | some bd => if di < bd then ((i : ℤ), some di) else (best, bestD))
    (bot.lane, none)).1

/-- `avoidObstacleInput`: steer to the safest lane (±5 dead-zone), jump
with probability `riskTolerance * 0.5`. -/
def avoidObstacleInput (prof : BotProfile) (bot : PlayerState)
    (segment : TrackSegment) (rng : SeededRNG) : InputState × SeededRNG :=
  let safe := findSafestLane bot segment
  let targetX := (safe : ℚ) * PHYSICS.LANE_WIDTH + PHYSICS.LANE_WIDTH / 2
  let diff := targetX - bot.x
  let left := decide (diff < -5)
  let right := !left && decide (diff > 5)
  let d := rng.next
  ({ left := left, right := right, jump := decide (d.2 < prof.riskTolerance * (1/2)) }, d.1)

/-- Chase target: minimum of `|Δdist| + |Δx|` over other unfinished
players, first minimal element kept (the source's stable sort followed
by taking index 0). -/
def chaseTarget (bot : PlayerState) (allPlayers : List PlayerState) :
    Option PlayerState :=
  let cands := allPlayers.filter fun p => p.id ≠ bot.id && !p.finished
  let key : PlayerState → ℚ := fun p =>
    |p.distanceTraveled - bot.distanceTraveled| + |p.x - bot.x|
  match cands with
  | [] => none
  | c :: cs => some (cs.foldl (fun best p => if key p < key best then p else best) c)

/-- `chaseInput`: steer toward (aggression > 0.5) or away from the
nearest target with a ±5 dead-zone; jump with probability 0.02. -/
def chaseInput (prof : BotProfile) (bot : PlayerState)
    (allPlayers : List PlayerState) (rng : SeededRNG) : InputState × SeededRNG :=
  let (left, right) :=
    match chaseTarget bot allPlayers with
    | some target =>
      let dx := target.x - bot.x
      if prof.collisionAggression > 1/2 then
        (decide (dx < -5), decide (¬(dx < -5)) && decide (dx > 5))
      else
        (decide (¬(dx < -5)) && decide (dx > 5), decide (dx < -5))
    | none => (false, false)
  let d := rng.next
  ({ left := left, right := right, jump := decide (d.2 < 1/50) }, d.1)

/-- `powerupInput`: with an active jump boost, jump with probability
0.05 (the RNG is drawn only in that case); with an active speed boost,
steer back toward the slide center (±10 dead-zone). -/
def powerupInput (bot : PlayerState) (rng : SeededRNG) : InputState × SeededRNG :=
  let jd : Bool × SeededRNG :=
    if bot.jumpBoostTimer > 0 then
      let d := rng.next
      (decide (d.2 < 1/20), d.1)
    else (false, rng)
  let centerX := PHYSICS.SLIDE_WIDTH / 2
  let lr : Bool × Bool :=
    if bot.speedBoostTimer > 0 then
      if bot.x < centerX - 10 then (false, true)
      else if bot.x > centerX + 10 then (true, false)
      else (false, false)
    else (false, false)
  ({ left := lr.1, right := lr.2, jump := jd.1 }, jd.2)

/-- `generateInput`: dispatch on the FSM state; `recover` emits neutral
input.  Returns `(raw input, new targetLane, rng)`. -/
def BotController.generateInput (tbl : ProfileTable) (c : BotController)
    (bot : PlayerState) (allPlayers : List PlayerState) (segment : TrackSegment)
    (rng : SeededRNG) : InputState × ℤ × SeededRNG :=
  let prof := tbl c.profileType
  match c.state with
  | .race => raceInput prof bot segment rng
  | .avoidObstacle =>
    let r := avoidObstacleInput prof bot segment rng
    (r.1, c.targetLane, r.2)
  | .chase =>
    let r := chaseInput prof bot allPlayers rng
    (r.1, c.targetLane, r.2)
  | .usePowerup =>
    let r := powerupInput bot rng
    (r.1, c.targetLane, r.2)
  | .recover => (neutralInput, c.targetLane, rng)

/-- The human-likeness layer at the end of `update`: steering jitter
(probability `steeringJitter`, flipping left or right according to a
second draw) followed by random mistakes (probability
`mistakeChance / 60`, overwriting the steering with a random
direction). -/
def applyHumanLikeness (prof : BotProfile) (delayed : InputState) (rng : SeededRNG) :
    InputState × SeededRNG :=
  let j : InputState × SeededRNG :=
    let d1 := rng.next
    if d1.2 < prof.steeringJitter then
      let d2 := d1.1.next
      if d2.2 > 1/2 then ({ delayed with left := !delayed.left }, d2.1)
      else ({ delayed with right := !delayed.right }, d2.1)
    else (delayed, d1.1)
  let m : InputState × SeededRNG :=
    let d3 := j.2.next
    if d3.2 < prof.mistakeChance / 60 then
      let d4 := d3.1.next
      let l := decide (d4.2 > 1/2)
      ({ j.1 with left := l, right := !l }, d4.1)
    else (j.1, d3.1)
  m

/-- One controller tick (`update`), instrumented to also expose the
input popped from the reaction buffer before the human-likeness layer:
returns `(table, controller, delayed input, returned input, rng)`. -/
def BotController.step (tbl : ProfileTable) (c : BotController)
    (bot : PlayerState) (allPlayers : List PlayerState) (segment : TrackSegment)
    (rng : SeededRNG) :
    ProfileTable × BotController × InputState × InputState × SeededRNG :=
  let c0 := { c with frameCount := c.frameCount + 1, stateTimer := c.stateTimer + 1 }
  let us := c0.updateState tbl bot allPlayers rng
  let gi := BotController.generateInput us.1 us.2.1 bot allPlayers segment us.2.2
  let c2 := { us.2.1 with targetLane := gi.2.1 }
  -- reaction buffer: push the raw input, pop the oldest
  let buf := c2.reactionBuffer ++ [gi.1]
  let delayed := buf.headD neutralInput
  let c3 := { c2 with reactionBuffer := buf.tail }
  let hl := applyHumanLikeness (us.1 c0.profileType) delayed gi.2.2
  (us.1, c3, delayed, hl.1, hl.2)

/-- `update`: the source's public per-tick entry point (the instrumented
`step` with the buffer-popped input projected away). -/
def BotController.update (tbl : ProfileTable) (c : BotController)
    (bot : PlayerState) (allPlayers : List PlayerState) (segment : TrackSegment)
    (rng : SeededRNG) : ProfileTable × BotController × InputState × SeededRNG :=
  let s := c.step tbl bot allPlayers segment rng
  (s.1, s.2.1, s.2.2.2.1, s.2.2.2.2)

/-- Two profiles that agree on every field except the two the adaptive
ratchet mutates (`targetSpeedFactor` and `riskTolerance`). -/
def eqExceptTuning (a b : BotProfile) : Prop :=
  a.type = b.type ∧ a.name = b.name ∧ a.boostSeekRange = b.boostSeekRange ∧
  a.optimalLineWeight = b.optimalLineWeight ∧ a.collisionAggression = b.collisionAggression ∧
  a.collisionAvoidance = b.collisionAvoidance ∧ a.jumpFrequency = b.jumpFrequency ∧
  a.jumpTimingPrecision = b.jumpTimingPrecision ∧ a.obstacleAvoidRange = b.obstacleAvoidRange ∧
  a.steeringJitter = b.steeringJitter ∧ a.reactionDelay = b.reactionDelay ∧
  a.mistakeChance = b.mistakeChance ∧ a.adaptiveness = b.adaptiveness

/-- Two profile tables whose entries agree up to the adaptive-ratchet
fields. -/
def tablesAgree (t1 t2 : ProfileTable) : Prop := ∀ q, eqExceptTuning (t1 q) (t2 q)

/-- One scenario tick as seen by a controller: the bot's own state, the
full roster and the active segment. -/
structure ScenarioTick where
  bot : PlayerState
  allPlayers : List PlayerState
  segment : TrackSegment

/-- Drive one controller through a scenario, collecting the returned
input sequence (fourth component) and the buffer-popped pre-jitter
sequence (fifth component). -/
def runBot (tbl : ProfileTable) (c : BotController) (rng : SeededRNG) :
    List ScenarioTick →
      ProfileTable × BotController × SeededRNG × List InputState × List InputState
  | [] => (tbl, c, rng, [], [])
  | t :: ts =>
    let s := c.step tbl t.bot t.allPlayers t.segment rng
    let r := runBot s.1 s.2.1 s.2.2.2.2 ts
    (r.1, r.2.1, r.2.2.1, s.2.2.2.1 :: r.2.2.2.1, s.2.2.1 :: r.2.2.2.2)

/-! ## Procedural track generation (track.ts, `createTrack`)

Every RNG draw is performed in source order.  JavaScript's
`list[rng.nextInt(0, list.length)]` indexing is modelled with `getD`;
the index is always ≥ 0 and can only reach `list.length` (JS:
`undefined`) at the unique RNG state whose output is exactly 1 — the
properties proved below do not depend on the selected tag. -/

def createSegment (type : SegmentType) (length : ℚ) (lanes : ℕ)
    (friction slope : ℚ) (obstacles : List ObstacleData)
    (powerups : List PowerupData) : TrackSegment :=
  { type := type, length := length, lanes := lanes, obstacles := obstacles,
    powerups := powerups, friction := friction, slope := slope }

/-- One obstacle draw: type, lane, position, moving flag (threshold 0.5
in chaos mode, otherwise 0.8), move range. -/
def genObstacle (rng : SeededRNG) (lanes : ℕ) (mode : GameMode) :
    SeededRNG × ObstacleData :=
  let obstacleTypes : List ObstacleType := [.barrel, .ring, .bumper]
  let (rng, ti) := rng.nextInt 0 3
  let (rng, lane) := rng.nextInt 0 (lanes : ℤ)
  let (rng, pos) := rng.nextFloat (1/10) (9/10)
  let (rng, mv) := rng.next
  let moving := if mode = .chaos then decide (mv > 1/2) else decide (mv > 4/5)
  let (rng, mr) := rng.nextInt 20 50
  (rng, { type := obstacleTypes.getD ti.toNat .barrel, lane := lane,
          position := pos, moving := moving, moveRange := mr })

def genObstacles (lanes : ℕ) (mode : GameMode) :
    ℕ → SeededRNG → SeededRNG × List ObstacleData
  | 0, rng => (rng, [])
  | n+1, rng =>
    let (rng, o) := genObstacle rng lanes mode
    let (rng, os) := genObstacles lanes mode n rng
    (rng, o :: os)

/-- One powerup draw: type, lane, position. -/
def genPowerup (rng : SeededRNG) (lanes : ℕ) : SeededRNG × PowerupData :=
  let puTypes : List PowerupType := [.speed_boost, .shield, .jump_boost]
  let (rng, ti) := rng.nextInt 0 3
  let (rng, lane) := rng.nextInt 0 (lanes : ℤ)
  let (rng, pos) := rng.nextFloat (1/10) (9/10)
  (rng, { type := puTypes.getD ti.toNat .speed_boost, lane := lane, position := pos })

def genPowerups (lanes : ℕ) : ℕ → SeededRNG → SeededRNG × List PowerupData
  | 0, rng => (rng, [])
  | n+1, rng =>
    let (rng, o) := genPowerup rng lanes
    let (rng, os) := genPowerups lanes n rng
    (rng, o :: os)

/-- The segment-type pool: six base types, plus `splitter`, `gap`,
`ramp` again in chaos mode. -/
def segmentTypePool (mode : GameMode) : List SegmentType :=
  let base : List SegmentType := [.straight, .curve_left, .curve_right, .ramp, .narrow, .gap]
  if mode = .chaos then base ++ [.splitter, .gap, .ramp] else base

/-- One loop body of `createTrack`: type, length in `[150, 500]`, lanes
(3 for narrow else 5), friction, slope, obstacles
(2–6 in chaos mode, else 0–4), powerups (0–3). -/
def genSegment (rng : SeededRNG) (mode : GameMode) : SeededRNG × TrackSegment :=
  let pool := segmentTypePool mode
  let d1 := rng.nextInt 0 (pool.length : ℤ)
  let type := pool.getD d1.2.toNat .straight
  let d2 := d1.1.nextInt 150 500
  let lanes : ℕ := if type = .narrow then 3 else 5
  let d3 := d2.1.nextFloat (19/20) (99/100)
  let d4 := d3.1.nextFloat (-(6/5)) (-(3/10))
  let d5 := if mode = .chaos then d4.1.nextInt 2 6 else d4.1.nextInt 0 4
  let d6 := genObstacles lanes mode d5.2.toNat d5.1
  let d7 := d6.1.nextInt 0 3
  let d8 := genPowerups lanes d7.2.toNat d7.1
  (d8.1, createSegment type (d2.2 : ℚ) lanes d3.2 d4.2 d6.2 d8.2)

/-- The generation loop: emit segments while the accumulated length is
below the target.  Terminates because every generated segment has
length at least 150. -/
def trackLoop (mode : GameMode) (target : ℚ) (rng : SeededRNG) (current : ℚ) :
    List TrackSegment :=
  if h : current < target then
    let res := genSegment rng mode
    res.2 :: trackLoop mode target res.1 (current + res.2.length)
  else []
termination_by ⌈target - current⌉.toNat
decreasing_by
  have hq : ∀ r : SeededRNG, (0:ℚ) ≤ (r.next).2 := by
    intro r
    simp only [SeededRNG.next]
    exact div_nonneg (by exact_mod_cast Int.emod_nonneg _ (by norm_num)) (by norm_num)
  have hlen : (150 : ℚ) ≤ (genSegment rng mode).2.length := by
    simp only [genSegment, createSegment, SeededRNG.nextInt]
    push_cast
    have h0 : (0:ℚ) ≤ ((rng.next.1.next).2) * ((500:ℚ) - 150) :=
      mul_nonneg (hq _) (by norm_num)
    have h1 : (0:ℤ) ≤ ⌊((rng.next.1.next).2) * ((500:ℚ) - 150)⌋ :=
      Int.le_floor.mpr (by simpa using h0)
    have h2 : (0:ℚ) ≤ ((⌊((rng.next.1.next).2) * ((500:ℚ) - 150)⌋ : ℤ) : ℚ) := by
      exact_mod_cast h1
    linarith
  have hmono : ⌈target - (current + (genSegment rng mode).2.length)⌉ ≤ ⌈target - current⌉ - 150 := by
    have : target - (current + (genSegment rng mode).2.length) ≤ (target - current) + ((-150 : ℤ) : ℚ) := by
      push_cast; linarith
    calc ⌈target - (current + (genSegment rng mode).2.length)⌉
        ≤ ⌈(target - current) + ((-150 : ℤ) : ℚ)⌉ := Int.ceil_le_ceil this
      _ = ⌈target - current⌉ - 150 := by rw [Int.ceil_add_int]; ring
  have hpos : 0 < ⌈target - current⌉ := Int.ceil_pos.mpr (by linarith)
  omega

/-- `createTrack(rng, mode, settings)`: fixed starting straight, the
generation loop toward `matchLength * 80`, then a clear 200-long finish
straight. -/
def createTrack (rng : SeededRNG) (mode : GameMode) (settings : GameSettings) :
    List TrackSegment :=
  let targetLength := settings.matchLength * 80
  let startSeg := createSegment .straight 300 5 (49/50) (-(1/2)) []
    [{ type := .speed_boost, lane := 2, position := 1/2 }]
  let finishSeg := createSegment .straight 200 5 (99/100) (-(4/5)) [] []
  (startSeg :: trackLoop mode targetLength rng 300) ++ [finishSeg]

/-- Total track length: the sum of the segment lengths. -/
def totalLength (track : List TrackSegment) : ℚ :=
  (track.map TrackSegment.length).sum

/-! ## Replay codec (replayCodec.ts)

`encodeReplayToUrl` is `btoa(JSON.stringify(compact))` and
`decodeReplayFromUrl` is `JSON.parse(atob(encoded))` plus field
extraction, with every failure caught and turned into a null result.
The platform pieces are modelled executably:

* `JSON.stringify` on the compact replay object — a JSON printer
  (`printJson`) emitting the exact grammar `stringify` produces for
  this value (no whitespace, keys in insertion order);
* `JSON.parse` — a fuel-indexed recursive-descent JSON parser
  (`parseJson`).  It accepts the whole grammar the encoder can emit;
  features the encoder never produces (string escapes, floating-point
  and negative literals, inter-token whitespace) are rejected rather
  than parsed, which only narrows behaviour on inputs that are
  irrelevant to the properties proved here, and the field extraction
  requires the fields the decoder dereferences to be present and
  well-typed (where JS would produce a crash caught by the
  `try`/`catch`, hence the same null result);
* `btoa`/`atob` — standard base64 over the UTF-16 code units
  (`Char.toNat`), with `atob` implementing forgiving-base64: ASCII
  whitespace is stripped, final-group padding is accepted, anything
  outside the alphabet fails.

Exceptions become `Option`: every failing path yields `none`. -/

def quoteChar : Char := Char.ofNat 34
def backslashChar : Char := Char.ofNat 92
def lbraceChar : Char := Char.ofNat 123
def rbraceChar : Char := Char.ofNat 125

/-- JSON values as produced by `JSON.parse` on encoder output; numbers
are restricted to the naturals the codec emits. -/
inductive Json where
  | null : Json
  | bool : Bool → Json
  | num : ℕ → Json
  | str : List Char → Json
  | arr : List Json → Json
  | obj : List (List Char × Json) → Json

def digitChar (d : ℕ) : Char := "0123456789".data.getD d '0'

def isDigitChar (c : Char) : Bool :=
  decide (48 ≤ c.toNat) && decide (c.toNat ≤ 57)

def digitVal (c : Char) : ℕ := c.toNat - 48

/-- Decimal digits of a natural number, most significant first. -/
def natDigits (n : ℕ) : List Char :=
  if n < 10 then [digitChar n]
  else natDigits (n / 10) ++ [digitChar (n % 10)]
termination_by n
decreasing_by exact Nat.div_lt_self (by omega) (by omega)

mutual

/-- `JSON.stringify` output for a `Json` value (no whitespace). -/
def printJson : Json → List Char
  | .num n => natDigits n
  | .str s => quoteChar :: (s ++ [quoteChar])
  | .null => 'n' :: ['u', 'l', 'l']
  | .bool false => 'f' :: ['a', 'l', 's', 'e']
  | .bool true => 't' :: ['r', 'u', 'e']
  | .arr (v :: vs) => '[' :: (printJson v ++ printItems vs ++ [']'])
  | .arr [] => ['[', ']']
  | .obj (f :: fs) => lbraceChar :: (printField f ++ printFields fs ++ [rbraceChar])
  | .obj [] => [lbraceChar, rbraceChar]

def printField : List Char × Json → List Char
  | (k, v) => quoteChar :: (k ++ [quoteChar, ':'] ++ printJson v)

def printItems : List Json → List Char
  | [] => []
  | v :: vs => ',' :: (printJson v ++ printItems vs)

def printFields : List (List Char × Json) → List Char
  | [] => []
  | f :: fs => ',' :: (printField f ++ printFields fs)

end

/-- Body of a JSON string up to the closing quote (escape sequences are
rejected; the encoder never emits them). -/
def parseStrBody : List Char → Option (List Char × List Char)
  | [] => none
  | c :: rest =>
    if c = quoteChar then some ([], rest)
    else if c = backslashChar then none
    else (parseStrBody rest).map (fun p => (c :: p.1, p.2))

/-- Leading decimal literal. -/
def parseNum (cs : List Char) : Option (ℕ × List Char) :=
  let ds := cs.takeWhile isDigitChar
  if ds = [] then none
  else some (ds.foldl (fun a c => a * 10 + digitVal c) 0, cs.dropWhile isDigitChar)

mutual

/-- Recursive-descent JSON value parser; `fuel` bounds the recursion
depth (the caller passes `input length + 1`, which suffices for
anything the printer emits). -/
def parseJson : ℕ → List Char → Option (Json × List Char)
  | 0, _ => none
  | fuel+1, cs =>
    match cs with
    | [] => none
    | c :: rest =>
      if c = quoteChar then (parseStrBody rest).map (fun p => (Json.str p.1, p.2))
      else if c = '[' then
        match rest with
        | ']' :: r2 => some (.arr [], r2)
        | _ => (parseItems fuel rest).map (fun p => (Json.arr p.1, p.2))
      else if c = lbraceChar then
        match rest with
        | c2 :: r2 =>
          if c2 = rbraceChar then some (.obj [], r2)
          else (parseFields fuel rest).map (fun p => (Json.obj p.1, p.2))
        | [] => none
      else if c = 'n' then
        match rest with
        | 'u' :: 'l' :: 'l' :: r => some (.null, r)
        | _ => none
      else if c = 't' then
        match rest with
        | 'r' :: 'u' :: 'e' :: r => some (.bool true, r)
        | _ => none
      else if c = 'f' then
        match rest with
        | 'a' :: 'l' :: 's' :: 'e' :: r => some (.bool false, r)
        | _ => none
      else if isDigitChar c then (parseNum cs).map (fun p => (Json.num p.1, p.2))
      else none

/-- Comma-separated values terminated by `]` (at least one value). -/
def parseItems : ℕ → List Char → Option (List Json × List Char)
  | 0, _ => none
  | fuel+1, cs =>
    match parseJson fuel cs with
    | none => none
    | some (v, r) =>
      match r with
      | ',' :: r2 => (parseItems fuel r2).map (fun p => (v :: p.1, p.2))
      | ']' :: r2 => some ([v], r2)
      | _ => none

/-- Comma-separated `"key":value` pairs terminated by `}` (at least one
pair). -/
def parseFields : ℕ → List Char → Option (List (List Char × Json) × List Char)
  | 0, _ => none
  | fuel+1, cs =>
    match cs with
    | [] => none
    | c :: rest =>
      if c = quoteChar then
        match parseStrBody rest with
        | none => none
        | some (k, r) =>
          match r with
          | ':' :: r2 =>
            match parseJson fuel r2 with
            | none => none
            | some (v, r3) =>
              match r3 with
              | ',' :: r4 => (parseFields fuel r4).map (fun p => ((k, v) :: p.1, p.2))
              | c3 :: r4 => if c3 = rbraceChar then some ([(k, v)], r4) else none
              | [] => none
          | _ => none
      else none

end

/-! ### Base64 (`btoa` / `atob`) -/

def b64Alphabet : List Char :=
  "ABCDEFGHIJKLMNOPQRSTUVWXYZabcdefghijklmnopqrstuvwxyz0123456789+/".data

def b64Char (n : ℕ) : Char := b64Alphabet.getD n 'A'

def b64Index (c : Char) : Option ℕ := b64Alphabet.indexOf? c

/-- `btoa` on the byte values of the input (the source strings are
ASCII, for which `Char.toNat` is the byte). -/
def btoaBytes : List ℕ → List Char
  | [] => []
  | [x] => [b64Char (x / 4), b64Char (x % 4 * 16), '=', '=']
  | [x, y] => [b64Char (x / 4), b64Char (x % 4 * 16 + y / 16), b64Char (y % 16 * 4), '=']
  | x :: y :: z :: rest =>
    b64Char (x / 4) :: b64Char (x % 4 * 16 + y / 16) ::
      b64Char (y % 16 * 4 + z / 64) :: b64Char (z % 64) :: btoaBytes rest

def btoa (s : List Char) : List Char := btoaBytes (s.map Char.toNat)

def isB64Whitespace (c : Char) : Bool :=
  c = ' ' || c = Char.ofNat 9 || c = Char.ofNat 10 || c = Char.ofNat 12 || c = Char.ofNat 13

/-- Forgiving-base64 group decoding: full groups of four, a final group
of 2 or 3 characters (with or without `=` padding); a leftover single
character or any character outside the alphabet fails. -/
def b64Groups : List Char → Option (List ℕ)
  | [] => some []
  | [a, b] => do
    let s1 ← b64Index a
    let s2 ← b64Index b
    pure [s1 * 4 + s2 / 16]
  | [a, b, c] => do
    let s1 ← b64Index a
    let s2 ← b64Index b
    let s3 ← b64Index c
    pure [s1 * 4 + s2 / 16, s2 % 16 * 16 + s3 / 4]
  | a :: b :: c :: d :: rest =>
    if c = '=' ∧ d = '=' ∧ rest = [] then do
      let s1 ← b64Index a
      let s2 ← b64Index b
      pure [s1 * 4 + s2 / 16]
    else if d = '=' ∧ rest = [] then do
      let s1 ← b64Index a
      let s2 ← b64Index b
      let s3 ← b64Index c
      pure [s1 * 4 + s2 / 16, s2 % 16 * 16 + s3 / 4]
    else do
      let s1 ← b64Index a
      let s2 ← b64Index b
      let s3 ← b64Index c
      let s4 ← b64Index d
      let bs ← b64Groups rest
      pure ((s1 * 4 + s2 / 16) :: (s2 % 16 * 16 + s3 / 4) :: (s3 % 4 * 64 + s4) :: bs)
  | [_] => none

def atob (s : List Char) : Option (List Char) :=
  (b64Groups (s.filter (fun c => !isB64Whitespace c))).map (List.map Char.ofNat)

/-! ### Encode / decode -/

/-- Frame input bitmask: bit0 = left, bit1 = right, bit2 = jump. -/
def inputMask (i : InputState) : ℕ :=
  (if i.left then 1 else 0) ||| (if i.right then 2 else 0) ||| (if i.jump then 4 else 0)

def modeString : GameMode → List Char
  | .classic => "classic".data
  | .timeTrial => "timeTrial".data
  | .chaos => "chaos".data
  | .custom => "custom".data

def modeOfString (s : List Char) : Option GameMode :=
  if s = "classic".data then some .classic
  else if s = "timeTrial".data then some .timeTrial
  else if s = "chaos".data then some .chaos
  else if s = "custom".data then some .custom
  else none

/-- The compact frame object `{t: tick, i: bitmask}`. -/
def frameJson (f : ReplayFrame) : Json :=
  .obj [(['t'], .num f.tick), (['i'], .num (inputMask f.inputs))]

/-- The compact replay object `{v, s, m, f}` handed to
`JSON.stringify`. -/
def compactJson (r : ReplayData) : Json :=
  .obj [(['v'], .num r.version), (['s'], .num r.seed),
        (['m'], .str (modeString r.mode)),
        (['f'], .arr (r.frames.map frameJson))]

/-- `encodeReplayToUrl`: `btoa(JSON.stringify(compact))`. -/
def encodeReplayToUrl (r : ReplayData) : String :=
  ⟨btoa (printJson (compactJson r))⟩

def getField (fields : List (List Char × Json)) (key : List Char) : Option Json :=
  (fields.find? (fun kv => kv.1 = key)).map (·.2)

def asNum : Json → Option ℕ
  | .num n => some n
  | _ => none

def asStr : Json → Option (List Char)
  | .str s => some s
  | _ => none

/-- Rebuild one frame from `{t, i}` (`left = i & 1`, `right = i & 2`,
`jump = i & 4`; the low bits are unchanged by JS's 32-bit coercion). -/
def frameOfJson : Json → Option ReplayFrame
  | .obj fields => do
    let t ← getField fields ['t'] >>= asNum
    let i ← getField fields ['i'] >>= asNum
    pure { tick := t,
           inputs := { left := i &&& 1 != 0, right := i &&& 2 != 0, jump := i &&& 4 != 0 } }
  | _ => none

/-- Rebuild a `ReplayData` from the parsed compact object; `settings`
becomes `{}`, `startTime` 0 and `playerName` "Replay" as in the
source. -/
def replayOfJson : Json → Option ReplayData
  | .obj fields => do
    let v ← getField fields ['v'] >>= asNum
    let s ← getField fields ['s'] >>= asNum
    let mstr ← getField fields ['m'] >>= asStr
    let m ← modeOfString mstr
    let fr ← match getField fields ['f'] with
      | some (.arr xs) => xs.mapM frameOfJson
      | _ => none
    pure { version := v, seed := s, mode := m, settings := (),
           frames := fr, startTime := 0, playerName := "Replay" }
  | _ => none

/-- `decodeReplayFromUrl`: `atob`, `JSON.parse` (requiring the input to
be fully consumed), field extraction; any failure yields `none`. -/
def decodeReplayFromUrl (s : String) : Option ReplayData :=
  match atob s.data with
  | none => none
  | some js =>
    match parseJson (js.length + 1) js with
    | some (v, []) => replayOfJson v
    | _ => none

/-! ### Codec proof vocabulary: value classes and parser fuel -/

/-- A string (list of code units) the printer can embed between quotes
verbatim: no quote, no backslash, single-byte code units.  Every string
the encoder emits (the four mode names and the four one-letter keys)
satisfies this. -/
def GoodStr (s : List Char) : Prop :=
  ∀ c ∈ s, c ≠ quoteChar ∧ c ≠ backslashChar ∧ c.toNat < 256

mutual

/-- Values on which the printer emits exactly the grammar the parser
reads back (all encoder outputs are such values). -/
def GoodJson : Json → Prop
  | .null => True
  | .bool _ => True
  | .num _ => True
  | .str s => GoodStr s
  | .arr vs => GoodItems vs
  | .obj fs => GoodFields fs

def GoodItems : List Json → Prop
  | [] => True
  | v :: vs => GoodJson v ∧ GoodItems vs

def GoodFields : List (List Char × Json) → Prop
  | [] => True
  | f :: fs => GoodStr f.1 ∧ GoodJson f.2 ∧ GoodFields fs

end

mutual

/-- Parser fuel sufficient for a value (each parser entry consumes one
unit). -/
def jfuel : Json → ℕ
  | .arr vs => jfuelItems vs + 1
  | .obj fs => jfuelFields fs + 1
  | .null => 1
  | .num _ => 1
  | .bool _ => 1
  | .str _ => 1

def jfuelItems : List Json → ℕ
  | [] => 0
  | v :: vs => max (jfuel v) (jfuelItems vs) + 1

def jfuelFields : List (List Char × Json) → ℕ
  | [] => 0
  | f :: fs => max (jfuel f.2) (jfuelFields fs) + 1

end

/-- The head of the remaining input is not a digit (so a preceding
number literal stops exactly at the boundary). -/
def headNotDigit : List Char → Prop
  | [] => True
  | c :: _ => isDigitChar c = false

/-- Side condition for the print/parse round trip: a bare number must
be followed by a non-digit. -/
def numGuard : Json → List Char → Prop
  | .num _, rest => headNotDigit rest
  | _, _ => True

/-! # Theorems -/

/-! ## Track generation (claim C10) -/

theorem genSegment_length_lb (rng : SeededRNG) (mode : GameMode) :
    (150 : ℚ) ≤ (genSegment rng mode).2.length := by
  have hq : ∀ r : SeededRNG, (0:ℚ) ≤ (r.next).2 := by
    intro r
    simp only [SeededRNG.next]
    exact div_nonneg (by exact_mod_cast Int.emod_nonneg _ (by norm_num)) (by norm_num)
  simp only [genSegment, createSegment, SeededRNG.nextInt]
  push_cast
  have h0 : (0:ℚ) ≤ ((rng.next.1.next).2) * ((500:ℚ) - 150) :=
    mul_nonneg (hq _) (by norm_num)
  have h1 : (0:ℤ) ≤ ⌊((rng.next.1.next).2) * ((500:ℚ) - 150)⌋ :=
    Int.le_floor.mpr (by simpa using h0)
  have h2 : (0:ℚ) ≤ ((⌊((rng.next.1.next).2) * ((500:ℚ) - 150)⌋ : ℤ) : ℚ) := by
    exact_mod_cast h1
  linarith

theorem trackLoop_measure_dec (rng : SeededRNG) (mode : GameMode)
    (target current : ℚ) (h : current < target) :
    ⌈target - (current + (genSegment rng mode).2.length)⌉.toNat <
      ⌈target - current⌉.toNat := by
  have hlen := genSegment_length_lb rng mode
  have hmono : ⌈target - (current + (genSegment rng mode).2.length)⌉ ≤
      ⌈target - current⌉ - 150 := by
    have hle : target - (current + (genSegment rng mode).2.length) ≤
        (target - current) + ((-150 : ℤ) : ℚ) := by push_cast; linarith
    calc ⌈target - (current + (genSegment rng mode).2.length)⌉
        ≤ ⌈(target - current) + ((-150 : ℤ) : ℚ)⌉ := Int.ceil_le_ceil hle
      _ = ⌈target - current⌉ - 150 := by rw [Int.ceil_add_int]; ring
  have hpos : 0 < ⌈target - current⌉ := Int.ceil_pos.mpr (by linarith)
  omega

theorem trackLoop_reaches_target (mode : GameMode) (target : ℚ) :
    ∀ (n : ℕ) (rng : SeededRNG) (current : ℚ), ⌈target - current⌉.toNat = n →
      target ≤ current + totalLength (trackLoop mode target rng current) := by
  intro n
  induction n using Nat.strong_induction_on with
  | _ n ih =>
    intro rng current hn
    rw [trackLoop.eq_def]
    split
    · next h =>
      have hdec := trackLoop_measure_dec rng mode target current h
      rw [hn] at hdec
      have := ih _ hdec (genSegment rng mode).1
        (current + (genSegment rng mode).2.length) rfl
      simp only [totalLength, List.map_cons, List.sum_cons] at this ⊢
      linarith
    · next h =>
      simp only [totalLength, List.map_nil, List.sum_nil]
      linarith [not_lt.mp h]

theorem trackLoop_segment_lengths (mode : GameMode) (target : ℚ) :
    ∀ (n : ℕ) (rng : SeededRNG) (current : ℚ), ⌈target - current⌉.toNat = n →
      ∀ s ∈ trackLoop mode target rng current, (150 : ℚ) ≤ s.length := by
  intro n
  induction n using Nat.strong_induction_on with
  | _ n ih =>
    intro rng current hn s hs
    rw [trackLoop.eq_def] at hs
    split at hs
    · next h =>
      have hdec := trackLoop_measure_dec rng mode target current h
      rw [hn] at hdec
      simp only [List.mem_cons] at hs
      rcases hs with rfl | hs
      · exact genSegment_length_lb rng mode
      · exact ih _ hdec (genSegment rng mode).1 (current + (genSegment rng mode).2.length) rfl s hs
    · simp at hs

/-- C10 (confirmed): for every RNG state, mode and settings with
`matchLength ≥ 0`, `createTrack` terminates (it is a total function in
this model, justified by every generated segment having length at least
150 so the remaining distance shrinks each iteration — the generated
segments, and the fixed 300-long start and 200-long finish, all satisfy
the bound), the total segment length reaches `matchLength * 80`, and
the track ends with a straight segment carrying no obstacles and no
powerups. -/
theorem createTrack_props (rng : SeededRNG) (mode : GameMode)
    (settings : GameSettings) (h : 0 ≤ settings.matchLength) :
    settings.matchLength * 80 ≤ totalLength (createTrack rng mode settings) ∧
    (∀ s ∈ createTrack rng mode settings, (150 : ℚ) ≤ s.length) ∧
    (∃ last, (createTrack rng mode settings).getLast? = some last ∧
      last.type = .straight ∧ last.obstacles = [] ∧ last.powerups = []) := by
  have hreach := trackLoop_reaches_target mode (settings.matchLength * 80) _ rng 300 rfl
  refine ⟨?_, ?_, ?_⟩
  · simp only [createTrack, totalLength, List.map_append, List.map_cons, List.sum_append,
      List.sum_cons, List.map_nil, List.sum_nil, createSegment]
    simp only [totalLength] at hreach
    linarith
  · intro s hs
    simp only [createTrack, List.mem_append, List.mem_cons, List.mem_singleton] at hs
    rcases hs with (rfl | hs) | (rfl | hnil)
    · norm_num [createSegment]
    · exact trackLoop_segment_lengths mode (settings.matchLength * 80) _ rng 300 rfl s hs
    · norm_num [createSegment]
    · exact absurd hnil (List.not_mem_nil s)
  · refine ⟨createSegment .straight 200 5 (99/100) (-(4/5)) [] [], ?_, rfl, rfl, rfl⟩
    simp only [createTrack]
    exact List.getLast?_concat _

/-- C10 (witness): the track theorem at seed 3, classic mode and
`matchLength = 0`. -/
theorem createTrack_props_witness :
    (0 : ℚ) * 80 ≤ totalLength (createTrack ⟨3⟩ .classic ⟨0⟩) ∧
    (∀ s ∈ createTrack ⟨3⟩ .classic ⟨0⟩, (150 : ℚ) ≤ s.length) ∧
    (∃ last, (createTrack ⟨3⟩ .classic ⟨0⟩).getLast? = some last ∧
      last.type = .straight ∧ last.obstacles = [] ∧ last.powerups = []) :=
  createTrack_props ⟨3⟩ .classic ⟨0⟩ (by norm_num)

/-! ## Bot controller: reaction buffer (claim C9) -/

theorem recoverTransition_reactionBuffer (bot : PlayerState) (c : BotController) :
    (recoverTransition bot c).reactionBuffer = c.reactionBuffer := by
  unfold recoverTransition; split_ifs <;> rfl

theorem chaseTransition_reactionBuffer (a : ℚ) (n : ℕ) (c : BotController)
    (rng : SeededRNG) :
    (chaseTransition a n c rng).1.reactionBuffer = c.reactionBuffer := by
  unfold chaseTransition; dsimp only; split_ifs <;> rfl

theorem powerupTransition_reactionBuffer (bot : PlayerState) (c : BotController)
    (rng : SeededRNG) :
    (powerupTransition bot c rng).1.reactionBuffer = c.reactionBuffer := by
  unfold powerupTransition; dsimp only; split_ifs <;> rfl

theorem safetyValve_reactionBuffer (c : BotController) :
    (safetyValve c).reactionBuffer = c.reactionBuffer := by
  unfold safetyValve; split_ifs <;> rfl

theorem updateState_reactionBuffer (tbl : ProfileTable) (c : BotController)
    (bot : PlayerState) (ps : List PlayerState) (rng : SeededRNG) :
    ((c.updateState tbl bot ps rng).2.1).reactionBuffer = c.reactionBuffer := by
  unfold BotController.updateState
  split
  · rfl
  · dsimp only
    rw [safetyValve_reactionBuffer, powerupTransition_reactionBuffer,
      chaseTransition_reactionBuffer, recoverTransition_reactionBuffer]

theorem updateState_table (tbl : ProfileTable) (c : BotController)
    (bot : PlayerState) (ps : List PlayerState) (rng : SeededRNG) :
    (c.updateState tbl bot ps rng).1 =
      if bot.stunTimer > 0 then tbl else adaptiveAdjust tbl c.profileType bot ps := by
  unfold BotController.updateState
  split <;> rfl

/-- One controller tick pops a neutral input while the pre-filled
prefix of the reaction buffer is nonempty, and shortens that prefix by
one (pushing the fresh raw input at the back). -/
theorem step_neutral_head (tbl : ProfileTable) (c : BotController)
    (bot : PlayerState) (ps : List PlayerState) (seg : TrackSegment)
    (rng : SeededRNG) (m : ℕ) (rest : List InputState)
    (h : c.reactionBuffer = List.replicate (m + 1) neutralInput ++ rest) :
    (c.step tbl bot ps seg rng).2.2.1 = neutralInput ∧
    ∃ rest2, (c.step tbl bot ps seg rng).2.1.reactionBuffer =
      List.replicate m neutralInput ++ rest2 := by
  rcases hUS : BotController.updateState tbl
      { c with frameCount := c.frameCount + 1, stateTimer := c.stateTimer + 1 }
      bot ps rng with ⟨tb1, c1, rg1⟩
  have hc1 : c1.reactionBuffer = c.reactionBuffer := by
    have h2 := updateState_reactionBuffer tbl
      { c with frameCount := c.frameCount + 1, stateTimer := c.stateTimer + 1 } bot ps rng
    rw [hUS] at h2
    exact h2
  rcases hGI : BotController.generateInput tb1 c1 bot ps seg rg1 with ⟨raw, tl, rg2⟩
  constructor
  · unfold BotController.step
    dsimp only
    rw [hUS]
    dsimp only
    rw [hGI]
    dsimp only
    rw [hc1, h]
    simp [List.replicate_succ]
  · refine ⟨rest ++ [raw], ?_⟩
    unfold BotController.step
    dsimp only
    rw [hUS]
    dsimp only
    rw [hGI]
    dsimp only
    rw [hc1, h]
    simp [List.replicate_succ]

theorem runBot_delayed_neutral :
    ∀ (scenario : List ScenarioTick) (tbl : ProfileTable) (c : BotController)
      (rng : SeededRNG) (m : ℕ) (rest : List InputState),
      c.reactionBuffer = List.replicate m neutralInput ++ rest →
      ∀ i, i < m → i < scenario.length →
        (runBot tbl c rng scenario).2.2.2.2.get? i = some neutralInput := by
  intro scenario
  induction scenario with
  | nil =>
    intro tbl c rng m rest hbuf i him hilen
    simp at hilen
  | cons t ts ih =>
    intro tbl c rng m rest hbuf i him hilen
    match m, him with
    | m + 1, _ =>
      obtain ⟨hhead, rest2, hbuf2⟩ :=
        step_neutral_head tbl c t.bot t.allPlayers t.segment rng m rest hbuf
      match i with
      | 0 =>
        simp only [runBot, List.get?_cons_zero]
        rw [hhead]
      | i + 1 =>
        simp only [runBot, List.get?_cons_succ]
        exact ih _ _ _ m rest2 hbuf2 i (by omega) (by simpa using hilen)

/-- C9 (counterexample): the FIFO reaction buffer does feed neutral
inputs out for the first `reactionDelay` ticks, but the returned input
additionally passes through steering jitter and random mistakes, which
fire *after* the buffer pop: with a casual bot (reactionDelay = 8) and
RNG seed 1972 the very first `update` returns a non-neutral input (the
jitter draw ≈ 0.0003 < 0.15 flips the right-steer bit). -/
theorem bot_first_output_not_neutral_cex :
    (let stunBot : PlayerState :=
      { createPlayerState 1 "B" 2 true 1 (some .casual) with stunTimer := 1 }
     let seg : TrackSegment :=
      { type := .straight, length := 500, lanes := 1, obstacles := [], powerups := [],
        friction := 49/50, slope := -(1/2) }
     0 < (BOT_PROFILES .casual).reactionDelay ∧
     (BotController.update BOT_PROFILES (BotController.create BOT_PROFILES .casual)
        stunBot [stunBot] seg (SeededRNG.mk 1972)).2.2.1 ≠ neutralInput) := by
  with_unfolding_all decide

/-- C9 (amended): the reaction buffer is pre-filled with
`reactionDelay` neutral inputs at construction, so for every profile
and every scenario the input *popped from the buffer* (before the
steering-jitter/mistake post-processing) is neutral on each of the
first `reactionDelay` ticks; the final returned input can differ
whenever jitter or a mistake fires on those ticks. -/
theorem reaction_buffer_neutral_prefix (tbl : ProfileTable) (p : BotProfileType)
    (scenario : List ScenarioTick) (rng : SeededRNG) (i : ℕ)
    (hi : i < (tbl p).reactionDelay) (hlen : i < scenario.length) :
    (runBot tbl (BotController.create tbl p) rng scenario).2.2.2.2.get? i =
      some neutralInput := by
  apply runBot_delayed_neutral scenario tbl _ rng (tbl p).reactionDelay []
  · simp [BotController.create]
  · exact hi
  · exact hlen

/-- C9 (witness): the amended theorem at the casual profile
(reactionDelay 8), a one-tick scenario and tick index 0. -/
theorem reaction_buffer_neutral_prefix_witness :
    (0 < (BOT_PROFILES BotProfileType.casual).reactionDelay) ∧
    (runBot BOT_PROFILES (BotController.create BOT_PROFILES .casual) (SeededRNG.mk 1972)
      [⟨{ createPlayerState 1 "B" 2 true 1 (some .casual) with stunTimer := 1 },
        [{ createPlayerState 1 "B" 2 true 1 (some .casual) with stunTimer := 1 }],
        { type := .straight, length := 500, lanes := 1, obstacles := [], powerups := [],
          friction := 49/50, slope := -(1/2) }⟩]).2.2.2.2.get? 0 = some neutralInput :=
  ⟨by decide,
   reaction_buffer_neutral_prefix BOT_PROFILES .casual _ _ 0 (by decide) (by decide)⟩

/-! ## Bot controller: determinism and the shared profile (claim C2) -/

theorem eqExceptTuning_refl (a : BotProfile) : eqExceptTuning a a := by
  unfold eqExceptTuning; exact ⟨rfl, rfl, rfl, rfl, rfl, rfl, rfl, rfl, rfl, rfl, rfl, rfl, rfl⟩

theorem eqExceptTuning_symm {a b : BotProfile} (h : eqExceptTuning a b) :
    eqExceptTuning b a := by
  obtain ⟨h1, h2, h3, h4, h5, h6, h7, h8, h9, h10, h11, h12, h13⟩ := h
  exact ⟨h1.symm, h2.symm, h3.symm, h4.symm, h5.symm, h6.symm, h7.symm, h8.symm, h9.symm,
    h10.symm, h11.symm, h12.symm, h13.symm⟩

theorem eqExceptTuning_trans {a b c : BotProfile} (h : eqExceptTuning a b)
    (h' : eqExceptTuning b c) : eqExceptTuning a c := by
  obtain ⟨h1, h2, h3, h4, h5, h6, h7, h8, h9, h10, h11, h12, h13⟩ := h
  obtain ⟨g1, g2, g3, g4, g5, g6, g7, g8, g9, g10, g11, g12, g13⟩ := h'
  exact ⟨h1.trans g1, h2.trans g2, h3.trans g3, h4.trans g4, h5.trans g5, h6.trans g6,
    h7.trans g7, h8.trans g8, h9.trans g9, h10.trans g10, h11.trans g11, h12.trans g12,
    h13.trans g13⟩

theorem tablesAgree_refl (t : ProfileTable) : tablesAgree t t :=
  fun q => eqExceptTuning_refl (t q)

theorem tablesAgree_symm {t1 t2 : ProfileTable} (h : tablesAgree t1 t2) : tablesAgree t2 t1 :=
  fun q => eqExceptTuning_symm (h q)

theorem tablesAgree_trans {t1 t2 t3 : ProfileTable} (h : tablesAgree t1 t2)
    (h' : tablesAgree t2 t3) : tablesAgree t1 t3 :=
  fun q => eqExceptTuning_trans (h q) (h' q)

theorem eqExceptTuning_adjustWrite {a b : BotProfile} (h : eqExceptTuning a b) :
    eqExceptTuning
      { a with targetSpeedFactor := min 1 (a.targetSpeedFactor + 1/10),
               riskTolerance := min 1 (a.riskTolerance + 1/10) }
      { b with targetSpeedFactor := min 1 (b.targetSpeedFactor + 1/10),
               riskTolerance := min 1 (b.riskTolerance + 1/10) } := by
  obtain ⟨h1, h2, h3, h4, h5, h6, h7, h8, h9, h10, h11, h12, h13⟩ := h
  exact ⟨h1, h2, h3, h4, h5, h6, h7, h8, h9, h10, h11, h12, h13⟩

theorem adaptiveAdjust_agree {t1 t2 : ProfileTable} (k : BotProfileType)
    (bot : PlayerState) (ps : List PlayerState) (h : tablesAgree t1 t2) :
    tablesAgree (adaptiveAdjust t1 k bot ps) (adaptiveAdjust t2 k bot ps) := by
  have hadp : (t1 k).adaptiveness = (t2 k).adaptiveness := (h k).2.2.2.2.2.2.2.2.2.2.2.2
  unfold adaptiveAdjust
  rw [hadp]
  split_ifs with hA
  · cases hf : ps.find? (fun p => !p.isBot) with
    | none => exact h
    | some human =>
      dsimp only
      split_ifs with hd
      · intro q
        unfold setProfile
        by_cases hq : q = k
        · simp only [hq, if_pos rfl]
          exact eqExceptTuning_adjustWrite (h k)
        · simp only [if_neg hq]
          exact h q
      · exact h
  · exact h

theorem adaptiveAdjust_self (t : ProfileTable) (k : BotProfileType)
    (bot : PlayerState) (ps : List PlayerState) :
    tablesAgree t (adaptiveAdjust t k bot ps) := by
  unfold adaptiveAdjust
  split_ifs with hA
  · cases hf : ps.find? (fun p => !p.isBot) with
    | none => exact tablesAgree_refl t
    | some human =>
      dsimp only
      split_ifs with hd
      · intro q
        unfold setProfile
        by_cases hq : q = k
        · simp only [hq, if_pos rfl]
          exact ⟨rfl, rfl, rfl, rfl, rfl, rfl, rfl, rfl, rfl, rfl, rfl, rfl, rfl⟩
        · simp only [if_neg hq]
          exact eqExceptTuning_refl _
      · exact tablesAgree_refl t
  · exact tablesAgree_refl t



theorem scoreLanesAux_agree {p1 p2 : BotProfile} (seg : TrackSegment)
    (holw : p1.optimalLineWeight = p2.optimalLineWeight)
    (hav : p1.collisionAvoidance = p2.collisionAvoidance)
    (hbsr : p1.boostSeekRange = p2.boostSeekRange) :
    ∀ (n : ℕ) (rng : SeededRNG),
      scoreLanesAux p1 seg n rng = scoreLanesAux p2 seg n rng := by
  intro n
  induction n with
  | zero => intro rng; rfl
  | succ n ih => intro rng; simp only [scoreLanesAux, holw, hav, hbsr, ih]

theorem raceInput_agree {p1 p2 : BotProfile} (bot : PlayerState) (seg : TrackSegment)
    (rng : SeededRNG)
    (holw : p1.optimalLineWeight = p2.optimalLineWeight)
    (hav : p1.collisionAvoidance = p2.collisionAvoidance)
    (hbsr : p1.boostSeekRange = p2.boostSeekRange)
    (hjtp : p1.jumpTimingPrecision = p2.jumpTimingPrecision)
    (hjf : p1.jumpFrequency = p2.jumpFrequency) :
    raceInput p1 bot seg rng = raceInput p2 bot seg rng := by
  unfold raceInput scoreLanes
  simp only [scoreLanesAux_agree seg holw hav hbsr, hjtp, hjf]

theorem chaseInput_agree {p1 p2 : BotProfile} (bot : PlayerState)
    (ps : List PlayerState) (rng : SeededRNG)
    (hagg : p1.collisionAggression = p2.collisionAggression) :
    chaseInput p1 bot ps rng = chaseInput p2 bot ps rng := by
  unfold chaseInput
  simp only [hagg]

theorem generateInput_agree {t1 t2 : ProfileTable} (c : BotController)
    (bot : PlayerState) (ps : List PlayerState) (seg : TrackSegment)
    (rng : SeededRNG) (h : tablesAgree t1 t2) (hs : c.state ≠ .avoidObstacle) :
    BotController.generateInput t1 c bot ps seg rng =
      BotController.generateInput t2 c bot ps seg rng := by
  obtain ⟨het, hen, hbsr, holw, hagg, hav, hjf, hjtp, hoar, hsj, hrd, hmc, had⟩ :=
    h c.profileType
  unfold BotController.generateInput
  cases hc : c.state with
  | race => exact raceInput_agree bot seg rng holw hav hbsr hjtp hjf
  | avoidObstacle => exact absurd hc hs
  | chase => dsimp only; rw [chaseInput_agree bot ps rng hagg]
  | usePowerup => rfl
  | recover => rfl

theorem applyHumanLikeness_agree {p1 p2 : BotProfile} (d : InputState) (rng : SeededRNG)
    (hsj : p1.steeringJitter = p2.steeringJitter)
    (hmc : p1.mistakeChance = p2.mistakeChance) :
    applyHumanLikeness p1 d rng = applyHumanLikeness p2 d rng := by
  unfold applyHumanLikeness
  simp only [hsj, hmc]



theorem recoverTransition_no_avoid {c : BotController} (bot : PlayerState)
    (h : c.state ≠ .avoidObstacle) :
    (recoverTransition bot c).state ≠ .avoidObstacle := by
  unfold recoverTransition; split_ifs <;> simp_all

theorem chaseTransition_no_avoid {c : BotController} (a : ℚ) (n : ℕ) (rng : SeededRNG)
    (h : c.state ≠ .avoidObstacle) :
    (chaseTransition a n c rng).1.state ≠ .avoidObstacle := by
  unfold chaseTransition; dsimp only; split_ifs <;> simp_all

theorem powerupTransition_no_avoid {c : BotController} (bot : PlayerState) (rng : SeededRNG)
    (h : c.state ≠ .avoidObstacle) :
    (powerupTransition bot c rng).1.state ≠ .avoidObstacle := by
  unfold powerupTransition; dsimp only; split_ifs <;> simp_all

theorem safetyValve_no_avoid {c : BotController} (h : c.state ≠ .avoidObstacle) :
    (safetyValve c).state ≠ .avoidObstacle := by
  unfold safetyValve; split_ifs <;> simp_all

theorem updateState_no_avoid {c : BotController} (tbl : ProfileTable)
    (bot : PlayerState) (ps : List PlayerState) (rng : SeededRNG)
    (h : c.state ≠ .avoidObstacle) :
    ((c.updateState tbl bot ps rng).2.1).state ≠ .avoidObstacle := by
  unfold BotController.updateState
  split
  · simp
  · dsimp only
    exact safetyValve_no_avoid (powerupTransition_no_avoid _ _
      (chaseTransition_no_avoid _ _ _ (recoverTransition_no_avoid _ h)))

theorem updateState_pair_agree {t1 t2 : ProfileTable} (c : BotController)
    (bot : PlayerState) (ps : List PlayerState) (rng : SeededRNG)
    (h : tablesAgree t1 t2) :
    (c.updateState t1 bot ps rng).2 = (c.updateState t2 bot ps rng).2 := by
  unfold BotController.updateState
  by_cases hstun : bot.stunTimer > 0
  · simp only [if_pos hstun]
  · simp only [if_neg hstun]
    have hagg : ((adaptiveAdjust t1 c.profileType bot ps) c.profileType).collisionAggression =
        ((adaptiveAdjust t2 c.profileType bot ps) c.profileType).collisionAggression :=
      (adaptiveAdjust_agree c.profileType bot ps h c.profileType).2.2.2.2.1
    rw [hagg]



theorem step_state (tbl : ProfileTable) (c : BotController) (bot : PlayerState)
    (ps : List PlayerState) (seg : TrackSegment) (rng : SeededRNG) :
    ((c.step tbl bot ps seg rng).2.1).state =
      ((BotController.updateState tbl
        { c with frameCount := c.frameCount + 1, stateTimer := c.stateTimer + 1 }
        bot ps rng).2.1).state := rfl

theorem step_table (tbl : ProfileTable) (c : BotController) (bot : PlayerState)
    (ps : List PlayerState) (seg : TrackSegment) (rng : SeededRNG) :
    (c.step tbl bot ps seg rng).1 =
      (BotController.updateState tbl
        { c with frameCount := c.frameCount + 1, stateTimer := c.stateTimer + 1 }
        bot ps rng).1 := rfl

theorem step_no_avoid {c : BotController} (tbl : ProfileTable) (bot : PlayerState)
    (ps : List PlayerState) (seg : TrackSegment) (rng : SeededRNG)
    (h : c.state ≠ .avoidObstacle) :
    ((c.step tbl bot ps seg rng).2.1).state ≠ .avoidObstacle := by
  rw [step_state]
  exact updateState_no_avoid tbl bot ps rng h

theorem step_table_self (tbl : ProfileTable) (c : BotController) (bot : PlayerState)
    (ps : List PlayerState) (seg : TrackSegment) (rng : SeededRNG) :
    tablesAgree tbl (c.step tbl bot ps seg rng).1 := by
  rw [step_table, updateState_table]
  split_ifs
  · exact tablesAgree_refl tbl
  · exact adaptiveAdjust_self tbl _ bot ps

theorem step_agree {t1 t2 : ProfileTable} (c : BotController) (bot : PlayerState)
    (ps : List PlayerState) (seg : TrackSegment) (rng : SeededRNG)
    (h : tablesAgree t1 t2) (hs : c.state ≠ .avoidObstacle) :
    (c.step t1 bot ps seg rng).2 = (c.step t2 bot ps seg rng).2 ∧
    tablesAgree (c.step t1 bot ps seg rng).1 (c.step t2 bot ps seg rng).1 := by
  have hUS := updateState_pair_agree
    { c with frameCount := c.frameCount + 1, stateTimer := c.stateTimer + 1 } bot ps rng h
  rcases hU1 : BotController.updateState t1
      { c with frameCount := c.frameCount + 1, stateTimer := c.stateTimer + 1 }
      bot ps rng with ⟨tb1, c1, rg1⟩
  rcases hU2 : BotController.updateState t2
      { c with frameCount := c.frameCount + 1, stateTimer := c.stateTimer + 1 }
      bot ps rng with ⟨tb2, c2, rg2⟩
  rw [hU1, hU2] at hUS
  have hUS2 : (c1, rg1) = (c2, rg2) := hUS
  injection hUS2 with hc12 hrg12
  subst hc12
  subst hrg12
  have htbl : tablesAgree tb1 tb2 := by
    have e3 : tablesAgree (BotController.updateState t1
        { c with frameCount := c.frameCount + 1, stateTimer := c.stateTimer + 1 }
        bot ps rng).1
        (BotController.updateState t2
        { c with frameCount := c.frameCount + 1, stateTimer := c.stateTimer + 1 }
        bot ps rng).1 := by
      rw [updateState_table, updateState_table]
      split_ifs
      · exact h
      · exact adaptiveAdjust_agree _ bot ps h
    rw [hU1, hU2] at e3
    exact e3
  have hno : c1.state ≠ .avoidObstacle := by
    have h2 := @updateState_no_avoid
      { c with frameCount := c.frameCount + 1, stateTimer := c.stateTimer + 1 }
      t1 bot ps rng hs
    rw [hU1] at h2
    exact h2
  have hGI := generateInput_agree c1 bot ps seg rg1 htbl hno
  rcases hG1 : BotController.generateInput tb1 c1 bot ps seg rg1 with ⟨raw, tl, rg3⟩
  have hG2 : BotController.generateInput tb2 c1 bot ps seg rg1 = (raw, tl, rg3) := by
    rw [← hGI, hG1]
  have hjm : (tb1 c.profileType).steeringJitter = (tb2 c.profileType).steeringJitter :=
    (htbl c.profileType).2.2.2.2.2.2.2.2.2.1
  have hmc : (tb1 c.profileType).mistakeChance = (tb2 c.profileType).mistakeChance :=
    (htbl c.profileType).2.2.2.2.2.2.2.2.2.2.2.1
  constructor
  · unfold BotController.step
    dsimp only
    rw [hU1, hU2]
    dsimp only
    rw [hG1, hG2]
    dsimp only
    rw [applyHumanLikeness_agree _ _ hjm hmc]
  · unfold BotController.step
    dsimp only
    rw [hU1, hU2]
    exact htbl



theorem runBot_agree :
    ∀ (scenario : List ScenarioTick) (t1 t2 : ProfileTable) (c : BotController)
      (rng : SeededRNG), tablesAgree t1 t2 → c.state ≠ .avoidObstacle →
      (runBot t1 c rng scenario).2 = (runBot t2 c rng scenario).2 ∧
      tablesAgree (runBot t1 c rng scenario).1 (runBot t2 c rng scenario).1 := by
  intro scenario
  induction scenario with
  | nil => intro t1 t2 c rng h hs; exact ⟨rfl, h⟩
  | cons t ts ih =>
    intro t1 t2 c rng h hs
    obtain ⟨hstep2, hsteptbl⟩ := step_agree c t.bot t.allPlayers t.segment rng h hs
    rcases hS1 : c.step t1 t.bot t.allPlayers t.segment rng with ⟨sb1, sc1, sd1, so1, sr1⟩
    rcases hS2 : c.step t2 t.bot t.allPlayers t.segment rng with ⟨sb2, sc2, sd2, so2, sr2⟩
    rw [hS1, hS2] at hstep2 hsteptbl
    have hstep2' : (sc1, sd1, so1, sr1) = (sc2, sd2, so2, sr2) := hstep2
    injection hstep2' with hc hrest
    injection hrest with hd hrest2
    injection hrest2 with ho hr
    subst hc; subst hd; subst ho; subst hr
    have hno1 : sc1.state ≠ .avoidObstacle := by
      have h2 := step_no_avoid t1 t.bot t.allPlayers t.segment rng hs
      rw [hS1] at h2
      exact h2
    obtain ⟨ihpair, ihtbl⟩ := ih sb1 sb2 sc1 sr1 hsteptbl hno1
    constructor
    · simp only [runBot, hS1, hS2]
      rcases hR1 : runBot sb1 sc1 sr1 ts with ⟨rb1, rc1, rr1, ro1, rd1⟩
      rcases hR2 : runBot sb2 sc1 sr1 ts with ⟨rb2, rc2, rr2, ro2, rd2⟩
      rw [hR1, hR2] at ihpair
      have : (rc1, rr1, ro1, rd1) = (rc2, rr2, ro2, rd2) := ihpair
      injection this with h1 hrest
      injection hrest with h2 hrest2
      injection hrest2 with h3 h4
      subst h1; subst h2; subst h3; subst h4
      rfl
    · simp only [runBot, hS1, hS2]
      rcases hR1 : runBot sb1 sc1 sr1 ts with ⟨rb1, rc1, rr1, ro1, rd1⟩
      rcases hR2 : runBot sb2 sc1 sr1 ts with ⟨rb2, rc2, rr2, ro2, rd2⟩
      rw [hR1, hR2] at ihtbl
      exact ihtbl

theorem runBot_table_self :
    ∀ (scenario : List ScenarioTick) (tbl : ProfileTable) (c : BotController)
      (rng : SeededRNG), tablesAgree tbl (runBot tbl c rng scenario).1 := by
  intro scenario
  induction scenario with
  | nil => intro tbl c rng; exact tablesAgree_refl tbl
  | cons t ts ih =>
    intro tbl c rng
    simp only [runBot]
    exact tablesAgree_trans (step_table_self tbl c t.bot t.allPlayers t.segment rng)
      (ih _ _ _)

theorem create_eq {t1 t2 : ProfileTable} (p : BotProfileType)
    (h : (t1 p).reactionDelay = (t2 p).reactionDelay) :
    BotController.create t1 p = BotController.create t2 p := by
  simp only [BotController.create, h]

/-- C2 (amended): a controller constructed with a profile name, run
through a scenario, mutates the shared profile table only in
`targetSpeedFactor`/`riskTolerance`; a second controller constructed
afterwards with the same name (hence an identical pre-filled reaction
buffer) and driven through the same scenario with an identically-seeded
RNG produces a byte-identical returned-input sequence, because no
reachable state reads the ratcheted fields (`avoidObstacle`, the only
reader of `riskTolerance`, is never entered and `targetSpeedFactor` is
never read).  The tuning itself does leak through the shared record —
see the counterexample. -/
theorem bot_determinism_shared_profile (tbl0 : ProfileTable) (p : BotProfileType)
    (scenario : List ScenarioTick) (seed : ℤ) :
    (runBot (runBot tbl0 (BotController.create tbl0 p) ⟨seed⟩ scenario).1
      (BotController.create (runBot tbl0 (BotController.create tbl0 p) ⟨seed⟩ scenario).1 p)
      ⟨seed⟩ scenario).2.2.2.1 =
    (runBot tbl0 (BotController.create tbl0 p) ⟨seed⟩ scenario).2.2.2.1 := by
  have hAgr : tablesAgree tbl0 (runBot tbl0 (BotController.create tbl0 p) ⟨seed⟩ scenario).1 :=
    runBot_table_self scenario tbl0 (BotController.create tbl0 p) ⟨seed⟩
  have hc : BotController.create (runBot tbl0 (BotController.create tbl0 p) ⟨seed⟩ scenario).1 p
      = BotController.create tbl0 p :=
    create_eq p ((hAgr p).2.2.2.2.2.2.2.2.2.2.1).symm
  rw [hc]
  have hrun := runBot_agree scenario
    (runBot tbl0 (BotController.create tbl0 p) ⟨seed⟩ scenario).1 tbl0
    (BotController.create tbl0 p) ⟨seed⟩ (tablesAgree_symm hAgr)
    (by simp [BotController.create])
  exact congrArg (fun x => x.2.2.1) hrun.1

/-- C2 (counterexample): the constructor stores a shared reference into
`BOT_PROFILES` rather than a private deep copy, so one controller's
adaptive self-tuning is visible to a controller constructed later with
the same profile name: after a single `update` of an `adaptive` bot
trailing the human by 200, the table entry a new controller would
receive carries `targetSpeedFactor = 9/10` instead of the pristine
`4/5`. -/
theorem bot_profile_leak_cex :
    (let advBot : PlayerState := createPlayerState 1 "B" 0 true 1 (some .adaptive)
     let humanAhead : PlayerState :=
      { createPlayerState 0 "H" 0 false 0 none with distanceTraveled := 200 }
     let seg : TrackSegment :=
      { type := .straight, length := 500, lanes := 1, obstacles := [], powerups := [],
        friction := 49/50, slope := -(1/2) }
     ((BotController.update BOT_PROFILES (BotController.create BOT_PROFILES .adaptive)
        advBot [humanAhead, advBot] seg (SeededRNG.mk 7)).1
          BotProfileType.adaptive).targetSpeedFactor ≠
      (BOT_PROFILES BotProfileType.adaptive).targetSpeedFactor) := by
  with_unfolding_all decide

/-! ## RNG output ranges (claim C5) -/

theorem rng_next_nonneg (r : SeededRNG) : 0 ≤ (r.next).2 := by
  simp only [SeededRNG.next]
  exact div_nonneg (by exact_mod_cast Int.emod_nonneg _ (by norm_num)) (by norm_num)

theorem rng_next_le_one (r : SeededRNG) : (r.next).2 ≤ 1 := by
  simp only [SeededRNG.next]
  rw [div_le_one (by norm_num)]
  have h := Int.emod_lt_of_pos (r.seed * 1664525 + 1013904223)
    (show (0:ℤ) < 4294967296 by norm_num)
  exact_mod_cast Int.lt_add_one_iff.mp (by exact_mod_cast h)

/-- C5 (counterexample): at the RNG state 653637408 the next residue is
`2^32 - 1`, so `next()` returns exactly 1 (not strictly below 1) and
`nextInt(0, 10)` returns 10, outside `[0, 10)`. -/
theorem rng_unit_output_cex :
    ((SeededRNG.mk 653637408).next).2 = 1 ∧
    ((SeededRNG.mk 653637408).nextInt 0 10).2 = 10 := by
  with_unfolding_all decide

/-- C5 (amended): `next()` lies in the closed interval `[0, 1]` (the
upper end is attained, as the divisor is `2^32 - 1`); consequently for
`min < max`, `nextInt(min, max)` lies in the closed interval
`[min, max]`, and for `min ≤ max`, `nextFloat(min, max)` lies in
`[min, max]`. -/
theorem rng_output_ranges (r : SeededRNG) :
    (0 ≤ (r.next).2 ∧ (r.next).2 ≤ 1) ∧
    (∀ lo hi : ℤ, lo < hi →
      lo ≤ (r.nextInt lo hi).2 ∧ (r.nextInt lo hi).2 ≤ hi) ∧
    (∀ lo hi : ℚ, lo ≤ hi →
      lo ≤ (r.nextFloat lo hi).2 ∧ (r.nextFloat lo hi).2 ≤ hi) := by
  refine ⟨⟨rng_next_nonneg r, rng_next_le_one r⟩, ?_, ?_⟩
  · intro lo hi hlt
    simp only [SeededRNG.nextInt]
    have h1 : (0:ℚ) ≤ ((hi:ℚ) - (lo:ℚ)) := by
      have : (lo:ℚ) ≤ (hi:ℚ) := by exact_mod_cast hlt.le
      linarith
    have h2 : (0:ℤ) ≤ ⌊(r.next).2 * ((hi:ℚ) - (lo:ℚ))⌋ :=
      Int.le_floor.mpr (by simpa using mul_nonneg (rng_next_nonneg r) h1)
    have h3 : (r.next).2 * ((hi:ℚ) - (lo:ℚ)) ≤ ((hi - lo : ℤ) : ℚ) := by
      push_cast
      nlinarith [rng_next_le_one r, rng_next_nonneg r]
    have h4 : ⌊(r.next).2 * ((hi:ℚ) - (lo:ℚ))⌋ ≤ hi - lo := by
      have := Int.floor_le_floor h3
      simpa using this
    omega
  · intro lo hi hle
    simp only [SeededRNG.nextFloat]
    constructor
    · nlinarith [rng_next_nonneg r]
    · nlinarith [rng_next_nonneg r, rng_next_le_one r]

/-- C5 (witness): the amended range theorem applied at state 42 with
`nextInt(0, 10)` and `nextFloat(1, 3)`. -/
theorem rng_output_ranges_witness :
    (0 ≤ ((SeededRNG.mk 42).nextInt 0 10).2 ∧ ((SeededRNG.mk 42).nextInt 0 10).2 ≤ 10) ∧
    ((1:ℚ) ≤ ((SeededRNG.mk 42).nextFloat 1 3).2 ∧ ((SeededRNG.mk 42).nextFloat 1 3).2 ≤ 3) :=
  ⟨(rng_output_ranges ⟨42⟩).2.1 0 10 (by norm_num),
   (rng_output_ranges ⟨42⟩).2.2 1 3 (by norm_num)⟩

/-! ## Stun freezing (claim C4) -/

/-- C4 (counterexample): a player with `stunTimer = 1/100 > 0` but
below the tick length `1/60` is *not* frozen: the timer is clamped to 0
during the decrement phase and the movement phase runs, so `x` changes
under held left input (125 → 123 here). -/
theorem stun_short_stun_moves_cex :
    (let p : PlayerState :=
      { createPlayerState 0 "P" 2 false 0 none with stunTimer := 1/100, lateralSpeed := -100 }
     let seg : TrackSegment :=
      { type := .straight, length := 500, lanes := 5, obstacles := [], powerups := [],
        friction := 49/50, slope := -(1/2) }
     p.stunTimer > 0 ∧ p.finished = false ∧
       (updatePlayerPhysics p ⟨true, false, false⟩ seg PHYSICS.FIXED_DT).x ≠ p.x) := by
  with_unfolding_all decide

/-- C4 (amended): for a non-finished player whose stun outlasts this
tick's decrement (`dt < stunTimer`, e.g. the standard `stunTimer = 0.4`
with `dt = 1/60`), one physics tick with any input (in particular held
left) leaves `x` unchanged; timers are still decremented. -/
theorem stun_freezes_position (p : PlayerState) (input : InputState)
    (segment : TrackSegment) (dt : ℚ) (hf : p.finished = false)
    (hdt : 0 ≤ dt) (hs : dt < p.stunTimer) :
    (updatePlayerPhysics p input segment dt).x = p.x ∧
    (updatePlayerPhysics p input segment dt).stunTimer = p.stunTimer - dt := by
  have h0 : 0 < p.stunTimer := lt_of_le_of_lt hdt hs
  have hst : (decayTimers p dt).stunTimer = p.stunTimer - dt := by
    simp only [decayTimers]
    rw [if_pos h0, if_neg (by linarith)]
  have hpos : (decayTimers p dt).stunTimer > 0 := by rw [hst]; linarith
  have hxx : (decayTimers p dt).x = p.x := by simp [decayTimers]
  simp only [updatePlayerPhysics, hf, Bool.false_eq_true, if_false, if_pos hpos]
  exact ⟨hxx, hst⟩

/-- C4 (witness): the amended stun-freeze theorem at a concrete stunned
player (`stunTimer = 2/5`, `dt = 1/60`, left held). -/
theorem stun_freezes_position_witness :
    (updatePlayerPhysics
      { createPlayerState 0 "P" 2 false 0 none with stunTimer := 2/5, lateralSpeed := -100 }
      ⟨true, false, false⟩
      { type := .straight, length := 500, lanes := 5, obstacles := [], powerups := [],
        friction := 49/50, slope := -(1/2) }
      (1/60)).x =
      ({ createPlayerState 0 "P" 2 false 0 none with
          stunTimer := 2/5, lateralSpeed := -100 } : PlayerState).x :=
  (stun_freezes_position _ _ _ _ rfl (by norm_num) (by norm_num)).1

/-! ## Lane bounds (claim C3) -/

/-- C3 (counterexample): a stunned player (`stunTimer = 1`) whose `x`
is 240 — legal on a 5-lane segment — updated against a 3-lane `narrow`
segment returns early from the stun gate and keeps `x = 240`, outside
that segment's bounds `[60, 190]`. -/
theorem stunned_outside_lane_bounds_cex :
    (let p : PlayerState :=
      { createPlayerState 0 "P" 4 false 0 none with x := 240, stunTimer := 1 }
     let seg : TrackSegment :=
      { type := .narrow, length := 200, lanes := 3, obstacles := [], powerups := [],
        friction := 24/25, slope := -(7/10) }
     let q := updatePlayerPhysics p ⟨true, false, false⟩ seg PHYSICS.FIXED_DT
     p.finished = false ∧
     ¬(PHYSICS.SLIDE_WIDTH / 2 - ((seg.lanes : ℚ) * PHYSICS.LANE_WIDTH) / 2 + 10 ≤ q.x ∧
       q.x ≤ PHYSICS.SLIDE_WIDTH / 2 + ((seg.lanes : ℚ) * PHYSICS.LANE_WIDTH) / 2 - 10)) := by
  with_unfolding_all decide

theorem movePhase_x_bounds (p : PlayerState) (input : InputState)
    (segment : TrackSegment) (dt : ℚ) (hl : 1 ≤ segment.lanes) :
    PHYSICS.SLIDE_WIDTH / 2 - ((segment.lanes : ℚ) * PHYSICS.LANE_WIDTH) / 2 + 10 ≤
      (movePhase p input segment dt).x ∧
    (movePhase p input segment dt).x ≤
      PHYSICS.SLIDE_WIDTH / 2 + ((segment.lanes : ℚ) * PHYSICS.LANE_WIDTH) / 2 - 10 := by
  have hlq : (1:ℚ) ≤ (segment.lanes : ℚ) := by exact_mod_cast hl
  have hlohi : PHYSICS.SLIDE_WIDTH / 2 - ((segment.lanes : ℚ) * PHYSICS.LANE_WIDTH) / 2 + 10 ≤
      PHYSICS.SLIDE_WIDTH / 2 + ((segment.lanes : ℚ) * PHYSICS.LANE_WIDTH) / 2 - 10 := by
    simp only [PHYSICS.SLIDE_WIDTH, PHYSICS.LANE_WIDTH]
    nlinarith
  constructor
  · simp only [movePhase]
    exact le_max_left _ _
  · simp only [movePhase]
    exact max_le hlohi (min_le_left _ _)

/-- C3 (amended): whenever a physics tick runs to completion — the
player is not finished and not stunned past this tick's timer decrement
(`stunTimer ≤ dt`) — the final clamp places `x` inside
`[centerX - halfWidth + 10, centerX + halfWidth - 10]` for the segment
the tick used (any segment with at least one lane).  A tick cut short
by the stun gate leaves `x` unchanged instead (see the stun theorem),
which is how a stunned player carried into a narrower segment can sit
outside the new segment's bounds. -/
theorem lane_bounds_full_tick (p : PlayerState) (input : InputState)
    (segment : TrackSegment) (dt : ℚ) (hf : p.finished = false)
    (hs : p.stunTimer ≤ dt) (hl : 1 ≤ segment.lanes) :
    PHYSICS.SLIDE_WIDTH / 2 - ((segment.lanes : ℚ) * PHYSICS.LANE_WIDTH) / 2 + 10 ≤
      (updatePlayerPhysics p input segment dt).x ∧
    (updatePlayerPhysics p input segment dt).x ≤
      PHYSICS.SLIDE_WIDTH / 2 + ((segment.lanes : ℚ) * PHYSICS.LANE_WIDTH) / 2 - 10 := by
  have hstun : ¬((decayTimers p dt).stunTimer > 0) := by
    simp only [decayTimers]
    by_cases h0 : p.stunTimer > 0
    · rw [if_pos h0]
      by_cases h1 : p.stunTimer - dt < 0
      · rw [if_pos h1]; norm_num
      · rw [if_neg h1]; push_neg at h1 ⊢; linarith
    · rw [if_neg h0]; push_neg at h0 ⊢; linarith
  simp only [updatePlayerPhysics, hf, Bool.false_eq_true, if_false, if_neg hstun]
  exact movePhase_x_bounds _ input segment dt hl

/-- C3 (witness): the amended bounds theorem at a concrete un-stunned
player on the 3-lane narrow segment. -/
theorem lane_bounds_full_tick_witness :
    PHYSICS.SLIDE_WIDTH / 2 - ((3 : ℚ) * PHYSICS.LANE_WIDTH) / 2 + 10 ≤
      (updatePlayerPhysics
        { createPlayerState 0 "P" 4 false 0 none with x := 240 }
        ⟨true, false, false⟩
        { type := .narrow, length := 200, lanes := 3, obstacles := [], powerups := [],
          friction := 24/25, slope := -(7/10) }
        (1/60)).x := by
  have h := (lane_bounds_full_tick
    { createPlayerState 0 "P" 4 false 0 none with x := 240 }
    ⟨true, false, false⟩
    { type := .narrow, length := 200, lanes := 3, obstacles := [], powerups := [],
      friction := 24/25, slope := -(7/10) }
    (1/60) rfl (by norm_num [createPlayerState]) (by norm_num)).1
  exact_mod_cast h

/-! ## Collision order independence (claim C6) -/

/-- C6 (counterexample): at equal lateral positions (`a.x = b.x = 125`)
the push-direction tie-break `dx > 0 ? 1 : -1` sends the *first*
argument left and the second right, so `resolveCollision(a, b)` and
`resolveCollision(b, a)` produce different states for the same
players. -/
theorem resolve_equal_x_asymmetric_cex :
    ¬(resolveCollision (createPlayerState 0 "A" 2 false 0 none)
        (createPlayerState 1 "B" 2 false 1 none) =
      ((resolveCollision (createPlayerState 1 "B" 2 false 1 none)
        (createPlayerState 0 "A" 2 false 0 none)).2,
       (resolveCollision (createPlayerState 1 "B" 2 false 1 none)
        (createPlayerState 0 "A" 2 false 0 none)).1)) := by
  with_unfolding_all decide

/-- C6 (amended): the collision check is symmetric for every pair
(including equal `x`), and collision resolution is order-independent
whenever the two players' lateral positions differ; at `a.x = b.x` the
tie-break pushes the first argument left, so swapping the arguments
swaps the push directions. -/
theorem collision_order_independent (a b : PlayerState) :
    checkPlayerCollision a b = checkPlayerCollision b a ∧
    (a.x ≠ b.x →
      resolveCollision a b = ((resolveCollision b a).2, (resolveCollision b a).1)) := by
  constructor
  · have e : (a.x - b.x) * (a.x - b.x) +
        (a.distanceTraveled - b.distanceTraveled) * (a.distanceTraveled - b.distanceTraveled) =
        (b.x - a.x) * (b.x - a.x) +
        (b.distanceTraveled - a.distanceTraveled) * (b.distanceTraveled - a.distanceTraveled) := by
      ring
    simp only [checkPlayerCollision, e, Bool.or_comm]
  · intro hxy
    rcases lt_or_gt_of_ne hxy with hab | hab
    · have hba : ¬ b.x < a.x := by linarith
      have h1 : ¬ a.x - b.x > 0 := by linarith
      have h2 : b.x - a.x > 0 := by linarith
      by_cases ha : a.hasShield <;> by_cases hb : b.hasShield <;>
        simp [resolveCollision, ha, hb, h1, h2, hab, hba] <;> (try constructor) <;> ring
    · have hba : ¬ a.x < b.x := by linarith
      have h1 : a.x - b.x > 0 := by linarith
      have h2 : ¬ b.x - a.x > 0 := by linarith
      by_cases ha : a.hasShield <;> by_cases hb : b.hasShield <;>
        simp [resolveCollision, ha, hb, h1, h2, hab, hba] <;> (try constructor) <;> ring

/-- C6 (witness): the order-independence theorem at a concrete pair
with distinct lateral positions (x = 125 and x = 175). -/
theorem collision_order_independent_witness :
    resolveCollision (createPlayerState 0 "A" 2 false 0 none)
        (createPlayerState 1 "B" 3 false 1 none) =
      ((resolveCollision (createPlayerState 1 "B" 3 false 1 none)
        (createPlayerState 0 "A" 2 false 0 none)).2,
       (resolveCollision (createPlayerState 1 "B" 3 false 1 none)
        (createPlayerState 0 "A" 2 false 0 none)).1) :=
  (collision_order_independent _ _).2 (by norm_num [createPlayerState, PHYSICS.LANE_WIDTH])

/-! ## Scoring monotonicity (claim C7) -/

/-- C7 (counterexample): the time bonus is floored and clamped at 0, so
a strictly faster finish does not always score strictly higher: with
`matchLength = 45`, finishing at time 100 and at time 101 (both past
the match length) score identically. -/
theorem score_time_tie_cex :
    calculateScore 1 2 100 45 = calculateScore 1 2 101 45 ∧ (100 : ℚ) < 101 := by
  with_unfolding_all decide

/-- C7 (amended): `calculateScore` is never negative; for a fixed
field, time and match length, a strictly lower (better) position in
`[1, totalPlayers]` scores strictly higher; and for a fixed position, a
faster finishing time scores at least as high (only weakly — the
`floor`/`max 0` time bonus can tie, as the counterexample shows). -/
theorem calculateScore_props :
    (∀ pos total t len : ℚ, 0 ≤ calculateScore pos total t len) ∧
    (∀ pos₁ pos₂ total t len : ℚ, 1 ≤ pos₁ → pos₁ < pos₂ → pos₂ ≤ total →
      calculateScore pos₂ total t len < calculateScore pos₁ total t len) ∧
    (∀ pos total t₁ t₂ len : ℚ, t₁ < t₂ →
      calculateScore pos total t₂ len ≤ calculateScore pos total t₁ len) := by
  refine ⟨?_, ?_, ?_⟩
  · intro pos total t len
    simp only [calculateScore]
    have h1 : (0:ℚ) ≤ max 0 ((total - pos + 1) * 100) := le_max_left _ _
    have h2 : (0:ℤ) ≤ max 0 ⌊(len - t) * 10⌋ := le_max_left _ _
    have h2q : (0:ℚ) ≤ ((max 0 ⌊(len - t) * 10⌋ : ℤ) : ℚ) := by exact_mod_cast h2
    linarith
  · intro pos₁ pos₂ total t len h1 h12 h2
    simp only [calculateScore]
    have e1 : max 0 ((total - pos₁ + 1) * 100) = (total - pos₁ + 1) * 100 :=
      max_eq_right (by nlinarith)
    have e2 : max 0 ((total - pos₂ + 1) * 100) = (total - pos₂ + 1) * 100 :=
      max_eq_right (by nlinarith)
    rw [e1, e2]
    have : (total - pos₂ + 1) * 100 < (total - pos₁ + 1) * 100 := by nlinarith
    linarith
  · intro pos total t₁ t₂ len h
    simp only [calculateScore]
    have hfl : ⌊(len - t₂) * 10⌋ ≤ ⌊(len - t₁) * 10⌋ :=
      Int.floor_le_floor (by nlinarith)
    have hmax : (max 0 ⌊(len - t₂) * 10⌋ : ℤ) ≤ max 0 ⌊(len - t₁) * 10⌋ :=
      max_le_max le_rfl hfl
    have hq : ((max 0 ⌊(len - t₂) * 10⌋ : ℤ) : ℚ) ≤ ((max 0 ⌊(len - t₁) * 10⌋ : ℤ) : ℚ) := by
      exact_mod_cast hmax
    linarith

/-- C7 (witness): the scoring theorem at the concrete field of the unit
tests: position 1 beats position 8 of 8 at time 30, and finishing at 20
scores at least as much as finishing at 40. -/
theorem calculateScore_props_witness :
    calculateScore 8 8 30 45 < calculateScore 1 8 30 45 ∧
    calculateScore 1 8 40 45 ≤ calculateScore 1 8 20 45 :=
  ⟨calculateScore_props.2.1 1 8 8 30 45 (by norm_num) (by norm_num) (by norm_num),
   calculateScore_props.2.2 1 8 20 40 45 (by norm_num)⟩


/-! ## Replay codec (claims C1 and C8)

The round trip is proved in layers: decimal digits
(`parseNum_natDigits`), string bodies (`parseStrBody_append`), base64
(`b64Groups_btoaBytes`, `atob_btoa`), the JSON grammar
(`parse_print`, by strong induction on parser fuel), and the field
extraction of the compact replay object (`replayOfJson_compactJson`).
-/

theorem b64_sextet_roundtrip : ∀ n, n < 64 → b64Index (b64Char n) = some n := by decide
theorem b64Char_ne_eq : ∀ n, n < 64 → b64Char n ≠ '=' := by decide
theorem b64Char_not_ws : ∀ n, n < 64 → isB64Whitespace (b64Char n) = false := by decide
theorem eq_not_ws : isB64Whitespace '=' = false := by decide

-- digit table facts
theorem digitChar_isDigit : ∀ d, d < 10 → isDigitChar (digitChar d) = true := by decide
theorem digitVal_digitChar : ∀ d, d < 10 → digitVal (digitChar d) = d := by decide
theorem digitChar_ascii : ∀ d, (digitChar d).toNat < 256 := by
  intro d
  by_cases h : d < 10
  · exact (show ∀ e, e < 10 → (digitChar e).toNat < 256 by decide) d h
  · have hlen : ("0123456789".data).length ≤ d := by
      simp only [String.data]
      norm_num
      omega
    unfold digitChar
    rw [List.getD_eq_default _ _ hlen]
    decide



theorem natDigits_ne_nil (n : ℕ) : natDigits n ≠ [] := by
  rw [natDigits]
  split_ifs
  · simp
  · simp

theorem natDigits_digits (n : ℕ) : ∀ c ∈ natDigits n, isDigitChar c = true := by
  induction n using Nat.strong_induction_on with
  | _ n ih =>
    rw [natDigits]
    split_ifs with h
    · intro c hc
      simp only [List.mem_singleton] at hc
      subst hc
      exact digitChar_isDigit n h
    · intro c hc
      simp only [List.mem_append, List.mem_singleton] at hc
      rcases hc with hc | hc
      · have hlt : n / 10 < n := Nat.div_lt_self (by omega) (by omega)
        exact ih _ hlt c hc
      · subst hc
        exact digitChar_isDigit (n % 10) (Nat.mod_lt _ (by omega))

theorem takeWhile_append_all {p : Char → Bool} :
    ∀ (xs ys : List Char), (∀ x ∈ xs, p x = true) →
      (xs ++ ys).takeWhile p = xs ++ ys.takeWhile p := by
  intro xs ys h
  induction xs with
  | nil => simp
  | cons x xs ih =>
    simp only [List.cons_append, List.takeWhile_cons, h x (List.mem_cons_self x xs)]
    simp only [if_true]
    rw [ih (fun y hy => h y (List.mem_cons_of_mem x hy))]

theorem dropWhile_append_all {p : Char → Bool} :
    ∀ (xs ys : List Char), (∀ x ∈ xs, p x = true) →
      (xs ++ ys).dropWhile p = ys.dropWhile p := by
  intro xs ys h
  induction xs with
  | nil => simp
  | cons x xs ih =>
    simp only [List.cons_append, List.dropWhile_cons, h x (List.mem_cons_self x xs)]
    exact ih (fun y hy => h y (List.mem_cons_of_mem x hy))

theorem takeWhile_not_head {p : Char → Bool} (ys : List Char)
    (h : match ys with | [] => True | c :: _ => p c = false) :
    ys.takeWhile p = [] ∧ ys.dropWhile p = ys := by
  cases ys with
  | nil => simp
  | cons c cs =>
    simp only at h
    simp [List.takeWhile_cons, List.dropWhile_cons, h]

theorem digitsVal_natDigits (n : ℕ) :
    (natDigits n).foldl (fun a c => a * 10 + digitVal c) 0 = n := by
  induction n using Nat.strong_induction_on with
  | _ n ih =>
    rw [natDigits]
    split_ifs with h
    · simp [digitVal_digitChar n h]
    · rw [List.foldl_append]
      rw [ih (n / 10) (Nat.div_lt_self (by omega) (by omega))]
      simp [digitVal_digitChar (n % 10) (Nat.mod_lt _ (by omega))]
      omega

theorem parseNum_natDigits (n : ℕ) (rest : List Char) (hrest : headNotDigit rest) :
    parseNum (natDigits n ++ rest) = some (n, rest) := by
  unfold parseNum
  have htake : (natDigits n ++ rest).takeWhile isDigitChar = natDigits n ++ rest.takeWhile isDigitChar :=
    takeWhile_append_all _ _ (natDigits_digits n)
  have hrest2 : rest.takeWhile isDigitChar = [] ∧ rest.dropWhile isDigitChar = rest := by
    apply takeWhile_not_head
    cases rest with
    | nil => trivial
    | cons c cs => exact hrest
  rw [htake, hrest2.1, List.append_nil]
  rw [dropWhile_append_all _ _ (natDigits_digits n), hrest2.2]
  rw [if_neg (natDigits_ne_nil n)]
  rw [digitsVal_natDigits]

theorem parseStrBody_append (s rest : List Char) (h : GoodStr s) :
    parseStrBody (s ++ quoteChar :: rest) = some (s, rest) := by
  induction s with
  | nil => simp [parseStrBody]
  | cons c cs ih =>
    obtain ⟨hq, hb, _⟩ := h c (List.mem_cons_self c cs)
    rw [List.cons_append]
    rw [show parseStrBody (c :: (cs ++ quoteChar :: rest)) =
        (parseStrBody (cs ++ quoteChar :: rest)).map (fun p => (c :: p.1, p.2)) from by
      simp only [parseStrBody, if_neg hq, if_neg hb]]
    rw [ih (fun x hx => h x (List.mem_cons_of_mem c hx))]
    rfl



theorem btoaBytes_not_ws :
    ∀ (bs : List ℕ), (∀ b ∈ bs, b < 256) →
      ∀ c ∈ btoaBytes bs, isB64Whitespace c = false := by
  intro bs
  induction bs using btoaBytes.induct with
  | case1 =>
    intro _ c hc
    simp [btoaBytes] at hc
  | case2 x =>
    intro h c hc
    have hx : x < 256 := h x (by simp)
    simp only [btoaBytes, List.mem_cons, List.mem_singleton] at hc
    rcases hc with rfl | rfl | rfl | rfl | hc
    · exact b64Char_not_ws _ (by omega)
    · exact b64Char_not_ws _ (by omega)
    · exact eq_not_ws
    · exact eq_not_ws
    · simp at hc
  | case3 x y =>
    intro h c hc
    have hx : x < 256 := h x (by simp)
    have hy : y < 256 := h y (by simp)
    simp only [btoaBytes, List.mem_cons, List.mem_singleton] at hc
    rcases hc with rfl | rfl | rfl | rfl | hc
    · exact b64Char_not_ws _ (by omega)
    · exact b64Char_not_ws _ (by omega)
    · exact b64Char_not_ws _ (by omega)
    · exact eq_not_ws
    · simp at hc
  | case4 x y z rest ih =>
    intro h c hc
    have hx : x < 256 := h x (by simp)
    have hy : y < 256 := h y (by simp)
    have hz : z < 256 := h z (by simp)
    simp only [btoaBytes, List.mem_cons, List.mem_append] at hc
    rcases hc with rfl | rfl | rfl | rfl | hc
    · exact b64Char_not_ws _ (by omega)
    · exact b64Char_not_ws _ (by omega)
    · exact b64Char_not_ws _ (by omega)
    · exact b64Char_not_ws _ (by omega)
    · exact ih (fun b hb => h b (by simp [hb])) c hc



theorem b64Groups_btoaBytes :
    ∀ (bs : List ℕ), (∀ b ∈ bs, b < 256) →
      b64Groups (btoaBytes bs) = some bs := by
  intro bs
  induction bs using btoaBytes.induct with
  | case1 =>
    intro _
    rfl
  | case2 x =>
    intro h
    have hx : x < 256 := h x (by simp)
    have h1 : x / 4 < 64 := by omega
    have h2 : x % 4 * 16 < 64 := by omega
    simp only [btoaBytes, b64Groups, if_true,
      b64_sextet_roundtrip _ h1, b64_sextet_roundtrip _ h2, Option.bind_some,
      Option.pure_def, Option.some.injEq, List.cons.injEq, and_true]
    show some [x / 4 * 4 + x % 4 * 16 / 16] = some [x]
    simp only [Option.some.injEq, List.cons.injEq, and_true]
    omega
  | case3 x y =>
    intro h
    have hx : x < 256 := h x (by simp)
    have hy : y < 256 := h y (by simp)
    have h1 : x / 4 < 64 := by omega
    have h2 : x % 4 * 16 + y / 16 < 64 := by omega
    have h3 : y % 16 * 4 < 64 := by omega
    simp only [btoaBytes, b64Groups, if_neg (b64Char_ne_eq _ h3), if_true,
      b64_sextet_roundtrip _ h1, b64_sextet_roundtrip _ h2, b64_sextet_roundtrip _ h3,
      Option.bind_some, Option.pure_def, Option.some.injEq, List.cons.injEq, and_true]
    show some [x / 4 * 4 + (x % 4 * 16 + y / 16) / 16,
      (x % 4 * 16 + y / 16) % 16 * 16 + y % 16 * 4 / 4] = some [x, y]
    simp only [Option.some.injEq, List.cons.injEq, and_true]
    exact ⟨by omega, by omega⟩
  | case4 x y z rest ih =>
    intro h
    have hx : x < 256 := h x (by simp)
    have hy : y < 256 := h y (by simp)
    have hz : z < 256 := h z (by simp)
    have h1 : x / 4 < 64 := by omega
    have h2 : x % 4 * 16 + y / 16 < 64 := by omega
    have h3 : y % 16 * 4 + z / 64 < 64 := by omega
    have h4 : z % 64 < 64 := by omega
    have hrec : b64Groups (btoaBytes rest) = some rest :=
      ih (fun b hb => h b (by simp [hb]))
    have hne1 : ¬ (b64Char (y % 16 * 4 + z / 64) = '=' ∧ b64Char (z % 64) = '=' ∧
        btoaBytes rest = []) := fun hc => b64Char_ne_eq _ h3 hc.1
    have hne2 : ¬ (b64Char (z % 64) = '=' ∧ btoaBytes rest = []) :=
      fun hc => b64Char_ne_eq _ h4 hc.1
    simp only [btoaBytes, b64Groups, if_neg hne1, if_neg hne2,
      b64_sextet_roundtrip _ h1, b64_sextet_roundtrip _ h2, b64_sextet_roundtrip _ h3,
      b64_sextet_roundtrip _ h4, hrec, Option.bind_some,
      Option.pure_def, Option.some.injEq, List.cons.injEq, and_true]
    show some ((x / 4 * 4 + (x % 4 * 16 + y / 16) / 16) ::
      ((x % 4 * 16 + y / 16) % 16 * 16 + (y % 16 * 4 + z / 64) / 4) ::
      ((y % 16 * 4 + z / 64) % 4 * 64 + z % 64) :: rest) = some (x :: y :: z :: rest)
    simp only [Option.some.injEq, List.cons.injEq, and_true]
    exact ⟨by omega, by omega, by omega⟩

theorem atob_btoa (s : List Char) (h : ∀ c ∈ s, c.toNat < 256) :
    atob (btoa s) = some s := by
  have hbytes : ∀ b ∈ s.map Char.toNat, b < 256 := by
    intro b hb
    rcases List.mem_map.mp hb with ⟨c, hc, rfl⟩
    exact h c hc
  have hfilter : (btoaBytes (s.map Char.toNat)).filter (fun c => !isB64Whitespace c)
      = btoaBytes (s.map Char.toNat) := by
    apply List.filter_eq_self.mpr
    intro c hc
    simp [btoaBytes_not_ws _ hbytes c hc]
  unfold atob btoa
  rw [hfilter, b64Groups_btoaBytes _ hbytes]
  show some ((s.map Char.toNat).map Char.ofNat) = some s
  rw [List.map_map]
  have hid : ∀ c ∈ s, (Char.ofNat ∘ Char.toNat) c = id c := by
    intro c _
    simp [Char.ofNat_toNat]
  rw [List.map_congr_left hid, List.map_id]



theorem digit_not_keychar (c : Char) (h : isDigitChar c = true) :
    c ≠ quoteChar ∧ c ≠ '[' ∧ c ≠ lbraceChar ∧ c ≠ 'n' ∧ c ≠ 't' ∧ c ≠ 'f' := by
  refine ⟨?_, ?_, ?_, ?_, ?_, ?_⟩ <;>
    (intro heq; rw [heq] at h; exact absurd h (by decide))

theorem printJson_head :
    ∀ j : Json, ∃ c cs, printJson j = c :: cs ∧ c ≠ ']' ∧ c ≠ rbraceChar := by
  intro j
  cases j with
  | null => exact ⟨'n', _, rfl, by decide, by decide⟩
  | bool b =>
    cases b with
    | true => exact ⟨'t', _, rfl, by decide, by decide⟩
    | false => exact ⟨'f', _, rfl, by decide, by decide⟩
  | num n =>
    rcases hnd : natDigits n with _ | ⟨d, ds⟩
    · exact absurd hnd (natDigits_ne_nil n)
    · have hd : isDigitChar d = true := natDigits_digits n d (by rw [hnd]; simp)
      refine ⟨d, ds, by simp [printJson, hnd], ?_, ?_⟩ <;>
        (intro heq; rw [heq] at hd; exact absurd hd (by decide))
  | str s => exact ⟨quoteChar, _, rfl, by decide, by decide⟩
  | arr vs =>
    cases vs with
    | nil => exact ⟨'[', _, rfl, by decide, by decide⟩
    | cons v vs => exact ⟨'[', _, rfl, by decide, by decide⟩
  | obj fs =>
    cases fs with
    | nil => exact ⟨lbraceChar, _, rfl, by decide, by decide⟩
    | cons f fs => exact ⟨lbraceChar, _, rfl, by decide, by decide⟩

theorem headNotDigit_items (vs : List Json) (rest : List Char) :
    headNotDigit (printItems vs ++ ']' :: rest) := by
  cases vs with
  | nil => exact (by decide : isDigitChar ']' = false)
  | cons v vs =>
    show isDigitChar ',' = false
    decide

theorem headNotDigit_fields (fs : List (List Char × Json)) (rest : List Char) :
    headNotDigit (printFields fs ++ rbraceChar :: rest) := by
  cases fs with
  | nil => exact (by decide : isDigitChar rbraceChar = false)
  | cons f fs =>
    show isDigitChar ',' = false
    decide

theorem numGuard_items (v : Json) (vs : List Json) (rest : List Char) :
    numGuard v (printItems vs ++ ']' :: rest) := by
  cases v <;> first
    | exact trivial
    | exact headNotDigit_items vs rest

theorem numGuard_fields (v : Json) (fs : List (List Char × Json)) (rest : List Char) :
    numGuard v (printFields fs ++ rbraceChar :: rest) := by
  cases v <;> first
    | exact trivial
    | exact headNotDigit_fields fs rest



theorem jfuel_pos : ∀ j : Json, 0 < jfuel j := by
  intro j
  cases j <;> simp [jfuel]

theorem parseJson_num (f n : ℕ) (rest : List Char) (hrest : headNotDigit rest) :
    parseJson (f+1) (natDigits n ++ rest) = some (.num n, rest) := by
  rcases hnd : natDigits n with _ | ⟨d, ds⟩
  · exact absurd hnd (natDigits_ne_nil n)
  · have hd : isDigitChar d = true := natDigits_digits n d (by rw [hnd]; simp)
    obtain ⟨h1, h2, h3, h4, h5, h6⟩ := digit_not_keychar d hd
    have hp : parseNum (natDigits n ++ rest) = some (n, rest) := parseNum_natDigits n rest hrest
    rw [hnd] at hp
    simp only [List.cons_append] at hp ⊢
    simp only [parseJson, if_neg h1, if_neg h2, if_neg h3, if_neg h4, if_neg h5, if_neg h6,
      if_pos hd, hp]
    rfl



theorem parseJson_null (f : ℕ) (rest : List Char) :
    parseJson (f+1) (['n','u','l','l'] ++ rest) = some (.null, rest) := by
  simp [parseJson, quoteChar, lbraceChar, rbraceChar]

theorem parseJson_true (f : ℕ) (rest : List Char) :
    parseJson (f+1) (['t','r','u','e'] ++ rest) = some (.bool true, rest) := by
  simp [parseJson, quoteChar, lbraceChar, rbraceChar]

theorem parseJson_false (f : ℕ) (rest : List Char) :
    parseJson (f+1) (['f','a','l','s','e'] ++ rest) = some (.bool false, rest) := by
  simp [parseJson, quoteChar, lbraceChar, rbraceChar]

theorem parseJson_arrNil (f : ℕ) (rest : List Char) :
    parseJson (f+1) (['[', ']'] ++ rest) = some (.arr [], rest) := by
  simp [parseJson, quoteChar, lbraceChar, rbraceChar]

theorem parseJson_objNil (f : ℕ) (rest : List Char) :
    parseJson (f+1) ([lbraceChar, rbraceChar] ++ rest) = some (.obj [], rest) := by
  simp [parseJson, quoteChar, lbraceChar, rbraceChar]

theorem parseJson_str (f : ℕ) (s rest : List Char) (h : GoodStr s) :
    parseJson (f+1) ((quoteChar :: (s ++ [quoteChar])) ++ rest) = some (.str s, rest) := by
  have hb : parseStrBody (s ++ quoteChar :: rest) = some (s, rest) := parseStrBody_append s rest h
  simp only [List.cons_append, List.append_assoc, List.singleton_append, List.nil_append]
  simp only [parseJson, if_pos rfl, if_true, hb]
  rfl

theorem parse_print (fuel : ℕ) :
    (∀ j rest, GoodJson j → numGuard j rest → jfuel j ≤ fuel →
      parseJson fuel (printJson j ++ rest) = some (j, rest)) ∧
    (∀ v vs rest, GoodJson v → GoodItems vs → jfuelItems (v :: vs) ≤ fuel →
      parseItems fuel (printJson v ++ (printItems vs ++ (']' :: rest))) = some (v :: vs, rest)) ∧
    (∀ k v fs rest, GoodStr k → GoodJson v → GoodFields fs → jfuelFields ((k, v) :: fs) ≤ fuel →
      parseFields fuel (quoteChar :: (k ++ quoteChar :: ':' ::
          (printJson v ++ (printFields fs ++ (rbraceChar :: rest)))))
        = some ((k, v) :: fs, rest)) := by
  induction fuel using Nat.strong_induction_on with
  | _ fuel ih =>
  refine ⟨?_, ?_, ?_⟩
  · -- values
    intro j rest hg hng hf
    rcases fuel with _ | f
    · exact absurd hf (by simpa using (jfuel_pos j).ne')
    cases j with
    | null => exact parseJson_null f rest
    | bool b =>
      cases b with
      | true => exact parseJson_true f rest
      | false => exact parseJson_false f rest
    | num n => exact parseJson_num f n rest hng
    | str s => exact parseJson_str f s rest hg
    | arr vs =>
      cases vs with
      | nil => exact parseJson_arrNil f rest
      | cons v vs =>
        have hfu : jfuelItems (v :: vs) ≤ f := by
          simp only [jfuel] at hf
          omega
        obtain ⟨c, cs, hpv, hc1, hc2⟩ := printJson_head v
        have hitems := (ih f (by omega)).2.1 v vs rest hg.1 hg.2 hfu
        simp only [printJson, List.cons_append, List.append_assoc, List.singleton_append,
          List.nil_append]
        simp only [parseJson, if_neg (by decide : ¬ ('[' : Char) = quoteChar),
          if_pos rfl, if_true]
        split
        · next r2 heq =>
          rw [hpv] at heq
          injection heq with h1 h2
          exact (hc1 h1).elim
        · next =>
          rw [hitems]
          rfl
    | obj fs =>
      cases fs with
      | nil => exact parseJson_objNil f rest
      | cons f0 fs =>
        rcases f0 with ⟨k, v⟩
        have hfu : jfuelFields ((k, v) :: fs) ≤ f := by
          simp only [jfuel] at hf
          omega
        have hfields := (ih f (by omega)).2.2 k v fs rest hg.1 hg.2.1 hg.2.2 hfu
        simp only [printJson, printField, List.cons_append, List.append_assoc,
          List.singleton_append, List.nil_append]
        simp only [parseJson, if_neg (by decide : ¬ lbraceChar = quoteChar),
          if_neg (by decide : ¬ lbraceChar = '['), if_pos rfl, if_true,
          if_neg (by decide : ¬ quoteChar = rbraceChar)]
        rw [hfields]
        rfl
  · -- items
    intro v vs rest hv hvs hf
    rcases fuel with _ | f
    · exact absurd hf (by simp [jfuelItems])
    have hjv : jfuel v ≤ f := by
      simp only [jfuelItems] at hf
      omega
    have hval := (ih f (by omega)).1 v (printItems vs ++ (']' :: rest)) hv
      (numGuard_items v vs rest) hjv
    simp only [parseItems, hval]
    cases vs with
    | nil =>
      simp [printItems]
    | cons w ws =>
      have hfu : jfuelItems (w :: ws) ≤ f := by
        simp only [jfuelItems] at hf ⊢
        omega
      have hrec := (ih f (by omega)).2.1 w ws rest hvs.1 hvs.2 hfu
      simp only [printItems, List.cons_append, List.append_assoc]
      simp only [hrec]
      rfl
  · -- fields
    intro k v fs rest hk hv hfs hf
    rcases fuel with _ | f
    · exact absurd hf (by simp [jfuelFields])
    have hjv : jfuel v ≤ f := by
      simp only [jfuelFields] at hf
      omega
    have hstr : parseStrBody (k ++ quoteChar ::
        (':' :: (printJson v ++ (printFields fs ++ (rbraceChar :: rest)))))
        = some (k, ':' :: (printJson v ++ (printFields fs ++ (rbraceChar :: rest)))) :=
      parseStrBody_append k _ hk
    have hval := (ih f (by omega)).1 v (printFields fs ++ (rbraceChar :: rest)) hv
      (numGuard_fields v fs rest) hjv
    simp only [parseFields, if_pos rfl, if_true, hstr, hval]
    cases fs with
    | nil =>
      simp only [printFields, List.nil_append]
      split
      · next r4 heq =>
        injection heq with h1 h2
        exact absurd h1 (by decide)
      · next c3 r4 heq =>
        injection heq with h1 h2
        subst h1
        subst h2
        rw [if_pos rfl]
      · next heq =>
        exact absurd heq (by simp)
    | cons g gs =>
      rcases g with ⟨k2, v2⟩
      have hfu : jfuelFields ((k2, v2) :: gs) ≤ f := by
        simp only [jfuelFields] at hf ⊢
        omega
      have hrec := (ih f (by omega)).2.2 k2 v2 gs rest hfs.1 hfs.2.1 hfs.2.2 hfu
      simp only [printFields, printField, List.cons_append, List.append_assoc,
        List.singleton_append, List.nil_append]
      simp only [hrec]
      rfl



mutual

theorem jfuel_le_print : ∀ j : Json, jfuel j ≤ (printJson j).length
  | .null => by simp [jfuel, printJson]
  | .bool b => by cases b <;> simp [jfuel, printJson]
  | .num n => by
    simp only [jfuel, printJson]
    exact List.length_pos.mpr (natDigits_ne_nil n)
  | .str s => by simp [jfuel, printJson]
  | .arr [] => by simp [jfuel, jfuelItems, printJson]
  | .arr (v :: vs) => by
    have h1 := jfuel_le_print v
    have h2 := jfuelItems_le_print vs
    simp only [jfuel, jfuelItems, printJson, List.length_cons, List.length_append,
      List.length_singleton]
    omega
  | .obj [] => by simp [jfuel, jfuelFields, printJson]
  | .obj (f :: fs) => by
    have h1 := jfuel_le_print f.2
    have h2 := jfuelFields_le_print fs
    have h3 : (printField f).length = f.1.length + (printJson f.2).length + 3 := by
      rcases f with ⟨k, v⟩
      simp [printField]
      omega
    simp only [jfuel, jfuelFields, printJson, List.length_cons, List.length_append,
      List.length_singleton, h3]
    omega

theorem jfuelItems_le_print : ∀ vs : List Json, jfuelItems vs ≤ (printItems vs).length
  | [] => by simp [jfuelItems, printItems]
  | v :: vs => by
    have h1 := jfuel_le_print v
    have h2 := jfuelItems_le_print vs
    simp only [jfuelItems, printItems, List.length_cons, List.length_append]
    omega

theorem jfuelFields_le_print :
    ∀ fs : List (List Char × Json), jfuelFields fs ≤ (printFields fs).length
  | [] => by simp [jfuelFields, printFields]
  | f :: fs => by
    have h1 := jfuel_le_print f.2
    have h2 := jfuelFields_le_print fs
    have h3 : (printField f).length = f.1.length + (printJson f.2).length + 3 := by
      rcases f with ⟨k, v⟩
      simp [printField]
      omega
    simp only [jfuelFields, printFields, List.length_cons, List.length_append, h3]
    omega

end



theorem natDigits_ascii (n : ℕ) : ∀ c ∈ natDigits n, c.toNat < 256 := by
  intro c hc
  have hd := natDigits_digits n c hc
  simp only [isDigitChar, Bool.and_eq_true, decide_eq_true_eq] at hd
  omega

mutual

theorem printJson_ascii : ∀ j : Json, GoodJson j → ∀ c ∈ printJson j, c.toNat < 256
  | .null => by
    intro _ c hc
    simp only [printJson, List.mem_cons, List.not_mem_nil, or_false] at hc
    rcases hc with rfl | rfl | rfl | rfl <;> decide
  | .bool b => by
    cases b <;>
      (intro _ c hc
       simp only [printJson, List.mem_cons, List.not_mem_nil, or_false] at hc
       rcases hc with rfl | rfl | rfl | rfl | rfl <;> decide)
  | .num n => by
    intro _ c hc
    exact natDigits_ascii n c hc
  | .str s => by
    intro hg c hc
    simp only [printJson, List.mem_cons, List.mem_append, List.mem_singleton, List.not_mem_nil, or_false] at hc
    rcases hc with rfl | hc | rfl
    · decide
    · exact (hg c hc).2.2
    · decide
  | .arr [] => by
    intro _ c hc
    simp only [printJson, List.mem_cons, List.not_mem_nil, or_false] at hc
    rcases hc with rfl | rfl <;> decide
  | .arr (v :: vs) => by
    intro hg c hc
    simp only [printJson, List.mem_cons, List.mem_append, List.mem_singleton, List.not_mem_nil, or_false] at hc
    rcases hc with rfl | (hc | hc) | rfl
    · decide
    · exact printJson_ascii v hg.1 c hc
    · exact printItems_ascii vs hg.2 c hc
    · decide
  | .obj [] => by
    intro _ c hc
    simp only [printJson, List.mem_cons, List.not_mem_nil, or_false] at hc
    rcases hc with rfl | rfl <;> decide
  | .obj (f :: fs) => by
    intro hg c hc
    simp only [printJson, List.mem_cons, List.mem_append, List.mem_singleton, List.not_mem_nil, or_false] at hc
    rcases hc with rfl | (hc | hc) | rfl
    · decide
    · exact printField_ascii f ⟨hg.1, hg.2.1⟩ c hc
    · exact printFields_ascii fs hg.2.2 c hc
    · decide

theorem printField_ascii :
    ∀ f : List Char × Json, GoodStr f.1 ∧ GoodJson f.2 → ∀ c ∈ printField f, c.toNat < 256
  | (k, v) => by
    intro hg c hc
    simp only [printField, List.mem_cons, List.mem_append, List.mem_singleton, List.not_mem_nil, or_false] at hc
    rcases hc with rfl | (hc | (rfl | rfl)) | hc
    · decide
    · exact (hg.1 c hc).2.2
    · decide
    · decide
    · exact printJson_ascii v hg.2 c hc

theorem printItems_ascii : ∀ vs : List Json, GoodItems vs → ∀ c ∈ printItems vs, c.toNat < 256
  | [] => by intro _ c hc; simp [printItems] at hc
  | v :: vs => by
    intro hg c hc
    simp only [printItems, List.mem_cons, List.mem_append] at hc
    rcases hc with rfl | hc | hc
    · decide
    · exact printJson_ascii v hg.1 c hc
    · exact printItems_ascii vs hg.2 c hc

theorem printFields_ascii :
    ∀ fs : List (List Char × Json), GoodFields fs → ∀ c ∈ printFields fs, c.toNat < 256
  | [] => by intro _ c hc; simp [printFields] at hc
  | f :: fs => by
    intro hg c hc
    simp only [printFields, List.mem_cons, List.mem_append] at hc
    rcases hc with rfl | hc | hc
    · decide
    · exact printField_ascii f ⟨hg.1, hg.2.1⟩ c hc
    · exact printFields_ascii fs hg.2.2 c hc

end



theorem goodStr_of_all (s : List Char)
    (h : s.all (fun c => decide (c ≠ quoteChar) && decide (c ≠ backslashChar) &&
      decide (c.toNat < 256)) = true) : GoodStr s := by
  intro c hc
  have hco := List.all_eq_true.mp h c hc
  simp only [Bool.and_eq_true, decide_eq_true_eq] at hco
  exact ⟨hco.1.1, hco.1.2, hco.2⟩

theorem modeString_good (m : GameMode) : GoodStr (modeString m) := by
  cases m <;> exact goodStr_of_all _ (by decide)

theorem frameJson_good (f : ReplayFrame) : GoodJson (frameJson f) :=
  ⟨goodStr_of_all ['t'] (by decide), trivial, goodStr_of_all ['i'] (by decide),
    trivial, trivial⟩

theorem goodItems_frames (fs : List ReplayFrame) : GoodItems (fs.map frameJson) := by
  induction fs with
  | nil => trivial
  | cons f fs ih => exact ⟨frameJson_good f, ih⟩

theorem compactJson_good (r : ReplayData) : GoodJson (compactJson r) :=
  ⟨goodStr_of_all ['v'] (by decide), trivial, goodStr_of_all ['s'] (by decide), trivial,
    goodStr_of_all ['m'] (by decide), modeString_good r.mode,
    goodStr_of_all ['f'] (by decide), goodItems_frames r.frames, trivial⟩

theorem modeOfString_modeString (m : GameMode) : modeOfString (modeString m) = some m := by
  cases m <;> rfl

theorem inputMask_left (i : InputState) : (inputMask i &&& 1 != 0) = i.left := by
  rcases i with ⟨l, r, j⟩
  cases l <;> cases r <;> cases j <;> decide

theorem inputMask_right (i : InputState) : (inputMask i &&& 2 != 0) = i.right := by
  rcases i with ⟨l, r, j⟩
  cases l <;> cases r <;> cases j <;> decide

theorem inputMask_jump (i : InputState) : (inputMask i &&& 4 != 0) = i.jump := by
  rcases i with ⟨l, r, j⟩
  cases l <;> cases r <;> cases j <;> decide

theorem frameOfJson_frameJson (f : ReplayFrame) : frameOfJson (frameJson f) = some f := by
  show some ({ tick := f.tick,
               inputs := { left := inputMask f.inputs &&& 1 != 0,
                           right := inputMask f.inputs &&& 2 != 0,
                           jump := inputMask f.inputs &&& 4 != 0 } } : ReplayFrame) = some f
  rw [inputMask_left, inputMask_right, inputMask_jump]

theorem mapM_frames (fs : List ReplayFrame) :
    (fs.map frameJson).mapM frameOfJson = some fs := by
  induction fs with
  | nil => rfl
  | cons f fs ih =>
    simp only [List.map_cons, List.mapM_cons, frameOfJson_frameJson, ih,
      Option.pure_def, Option.bind_some]
    rfl

theorem replayOfJson_compactJson (r : ReplayData) :
    replayOfJson (compactJson r) = some { version := r.version, seed := r.seed,
                                          mode := r.mode, settings := (), frames := r.frames,
                                          startTime := 0, playerName := "Replay" } := by
  show ((modeOfString (modeString r.mode)).bind fun m =>
      ((r.frames.map frameJson).mapM frameOfJson).bind fun fr =>
        (some { version := r.version, seed := r.seed, mode := m, settings := (),
                frames := fr, startTime := 0, playerName := "Replay" } : Option ReplayData))
    = some { version := r.version, seed := r.seed, mode := r.mode, settings := (),
             frames := r.frames, startTime := 0, playerName := "Replay" }
  rw [modeOfString_modeString, Option.some_bind, mapM_frames, Option.some_bind]



/-- C1: replay round trip.  For every `ReplayData` (arbitrary version,
seed, mode, and frame list covering any of the 8 input-bit
combinations), decoding the encoded transport string succeeds and
reproduces the version, seed, mode and the full ordered frame list
(ticks and the three boolean inputs exactly); `settings`, `startTime`
and `playerName` are reset to `{}`, `0` and `"Replay"` as the decoder
always does. -/
theorem replay_roundtrip (r : ReplayData) :
    decodeReplayFromUrl (encodeReplayToUrl r)
      = some { version := r.version, seed := r.seed, mode := r.mode, settings := (),
               frames := r.frames, startTime := 0, playerName := "Replay" } := by
  have hgood := compactJson_good r
  have hascii := printJson_ascii (compactJson r) hgood
  have hatob : atob (btoa (printJson (compactJson r))) = some (printJson (compactJson r)) :=
    atob_btoa _ hascii
  have hparse : parseJson ((printJson (compactJson r)).length + 1) (printJson (compactJson r))
      = some (compactJson r, []) := by
    have h := (parse_print ((printJson (compactJson r)).length + 1)).1 (compactJson r) []
      hgood trivial (by have := jfuel_le_print (compactJson r); omega)
    rwa [List.append_nil] at h
  unfold decodeReplayFromUrl encodeReplayToUrl
  dsimp only
  rw [hatob]
  dsimp only
  rw [hparse]
  exact replayOfJson_compactJson r

/-- C8: `decodeReplayFromUrl` is total and fails closed: the empty
string and the non-base64 string `"not-valid-base64!!!"` decode to
`none`, and every input yields either `none` or some `ReplayData`
(the embedding returns `Option` and has no failure path other than
`none`, mirroring the source's catch-all `try/catch`). -/
theorem decode_fails_closed :
    decodeReplayFromUrl "" = none ∧
    decodeReplayFromUrl "not-valid-base64!!!" = none ∧
    ∀ s, decodeReplayFromUrl s = none ∨ ∃ r, decodeReplayFromUrl s = some r := by
  refine ⟨by decide, by decide, ?_⟩
  intro s
  cases h : decodeReplayFromUrl s with
  | none => exact Or.inl rfl
  | some r => exact Or.inr ⟨r, rfl⟩

end AquaPark
